import Mathlib

/-!
Verification of the aggregation/statistics engine of `queries/run_all_queries.py`.

The eight MongoDB aggregation pipelines (q1 .. q8) are shallowly embedded as
pure functions over lists of typed documents.  Numeric document values
(percentages, HDI indices, watts, dollars, MW) are modelled as exact
rationals; the only real-number computation in the source, the square roots
inside query 3's correlation, is modelled with `Real.sqrt`.

Embedding conventions, matching MongoDB semantics as exercised by the source:
* a document collection is a `List` of documents, in insertion order;
* `$unwind` of an embedded array is `flatMap`; a missing or empty array
  produces no documents (the optional indicator series of a country document
  are `Option (List Entrada)`, since the migration scripts only set a series
  field when it is non-empty);
* `$match` is `filter`; a `$match` on a path into an array (as in q7/q8)
  holds when some array element matches;
* `$group` is `groupBy` below: one output group per distinct key, each group
  carrying the matching documents in collection order (group output order is
  deterministic here; every pipeline sorts afterwards, so only tie order
  depends on it);  `$push` is `map`, `$sum`/`$avg` are list sums (divided by
  the count for `$avg`), `$addToSet` followed by `$size` is `dedup.length`;
* `$sort` is the insertion sort `sortDescBy` (ascending keys are sorted by
  the negated key).  MongoDB leaves the relative order of equal sort keys
  unspecified; `sortDescBy` is one determinization of `$sort` (a stable
  one), and no theorem below draws a tie-order conclusion from it;
* `$round \x7bx, 2\x7d` is `round2`, which rounds a half up, while
  MongoDB rounds a half to even; no statement below touches a midpoint,
  and each claimed equality applies the same `round2` on both sides;
* `$lookup` + `$unwind` of the looked-up array is a `flatMap` over the
  filtered foreign collection.
-/

namespace RunAllQueries

/-- Rounding to 2 decimal places, the model of the aggregation `$round` with
place `2`. -/
def round2 (x : ℚ) : ℚ := ((⌊100 * x + 1 / 2⌋ : ℤ) : ℚ) / 100

/-- Insert `a` into `l` in front of the first element whose key is at most
`key a`.  Helper of the stable descending sort `sortDescBy`. -/
def insDescBy {α β : Type} [LinearOrder β] (key : α → β) (a : α) : List α → List α
  | [] => [a]
  | b :: l => if key b ≤ key a then a :: b :: l else b :: insDescBy key a l

/-- Stable sort by descending key: the model of `$sort` with a `-1` key
(and, applied to a negated key, of `$sort` with a `1` key). -/
def sortDescBy {α β : Type} [LinearOrder β] (key : α → β) (l : List α) : List α :=
  l.foldr (insDescBy key) []

/-- Group a list by a key: one entry per distinct key, carrying the sublist
of matching elements in order.  The model of `$group` (accumulators are
taken over the carried sublist). -/
def groupBy {α κ : Type} [DecidableEq κ] (key : α → κ) (xs : List α) : List (κ × List α) :=
  (xs.map key).dedup.map fun k => (k, xs.filter fun x => key x = k)

/-- One `(ano, valor)` entry of an embedded indicator time series of a
country document (`valor` stands for the value field, whose concrete name
varies by indicator: `porcentagem`, `indice`, `geracao_watts`,
`valor_dolar`). -/
structure Entrada where
  ano : Int
  valor : ℚ
deriving DecidableEq, Repr

/-- A document of the `paises` collection, with the fields read by the
pipelines.  A series field is `none` when the document lacks it (the
migration scripts omit a series that has no rows). -/
structure Pais where
  nome : String
  idh : Option (List Entrada)
  acesso_eletricidade : Option (List Entrada)
  acesso_energia_renovavel : Option (List Entrada)
  investimento_energia_limpa : Option (List Entrada)
  geracao_energia_renovavel_per_capita : Option (List Entrada)
deriving DecidableEq, Repr

/-- One element of a plant's `unidades_geradoras` array, with the fields
read by the pipelines. -/
structure Unidade where
  combustivel : String
  potencia_efetiva_mw : ℚ
deriving DecidableEq, Repr

/-- The embedded `estado` sub-document of a plant. -/
structure Estado where
  nome : String
deriving DecidableEq, Repr

/-- A document of the `usinas` collection, with the fields read by the
pipelines.  `id` models the MongoDB `_id` (used by q5's `$addToSet`). -/
structure Usina where
  id : Nat
  agente_proprietario : String
  estado : Estado
  unidades_geradoras : List Unidade
deriving DecidableEq, Repr

/-- The fixed renewable fuel-type list of q7/q8. -/
def renovaveis : List String := ["HÍDRICA", "EÓLICA", "SOLAR", "BIOMASSA"]

/-- A generating unit whose fuel type is in the renewable list (the unit
level `$match` of q8). -/
def isRenovavel (g : Unidade) : Prop := g.combustivel ∈ renovaveis

instance (g : Unidade) : Decidable (isRenovavel g) := by
  unfold isRenovavel; infer_instance

/-- A plant having at least one renewable generating unit: the meaning of
the q7/q8 `$match` on the array path `unidades_geradoras.combustivel`. -/
def temUnidadeRenovavel (u : Usina) : Prop :=
  ∃ g ∈ u.unidades_geradoras, isRenovavel g

instance (u : Usina) : Decidable (temUnidadeRenovavel u) := by
  unfold temUnidadeRenovavel; infer_instance

/-- Output row of query 1. -/
structure Q1Row where
  ano : Int
  media_global : ℚ
  acesso_brasil : Option ℚ
deriving DecidableEq, Repr

/-- The `$unwind` of `acesso_eletricidade` in q1: one document per country
and series entry. -/
def q1_unwound (paises : List Pais) : List (Pais × Entrada) :=
  paises.flatMap fun p => (p.acesso_eletricidade.getD []).map fun e => (p, e)

/-- Query 1: electricity access, Brazil vs the global average, per year.
`media_global` is `$avg` over the group; `acesso_brasil` is
`$arrayElemAt 0` of the `$push` that keeps (`$$REMOVE` semantics) only the
values of countries named `Brazil`; sorted ascending by year. -/
def q1_pipeline (paises : List Pais) : List Q1Row :=
  sortDescBy (fun r => -r.ano)
    ((groupBy (fun d => d.2.ano) (q1_unwound paises)).map fun g =>
      { ano := g.1
        media_global := round2 ((g.2.map fun d => d.2.valor).sum / (g.2.length : ℚ))
        acesso_brasil :=
          (g.2.filterMap fun d =>
            if d.1.nome = "Brazil" then some d.2.valor else none).head? })

/-- Output row of query 2. -/
structure Q2Row where
  pais : String
  ano : Int
  pct_renovavel : ℚ
deriving DecidableEq, Repr

/-- The documents of q2 that survive the two `$match` stages and the
`$unwind`: 2020 entries of countries whose `acesso_energia_renovavel`
field exists and is not the empty array. -/
def q2_eligible (paises : List Pais) : List (Pais × Entrada) :=
  ((paises.filter fun p =>
      p.acesso_energia_renovavel ≠ none ∧ p.acesso_energia_renovavel ≠ some []).flatMap
    fun p => (p.acesso_energia_renovavel.getD []).map fun e => (p, e)).filter
    fun d => d.2.ano = 2020

/-- The final `$project` of q2. -/
def q2_project (d : Pais × Entrada) : Q2Row :=
  { pais := d.1.nome, ano := d.2.ano, pct_renovavel := d.2.valor }

/-- Query 2: top 10 countries by renewable energy access in 2020, sorted
descending by percentage, truncated by `$limit 10`. -/
def q2_pipeline (paises : List Pais) : List Q2Row :=
  ((sortDescBy (fun d => d.2.valor) (q2_eligible paises)).take 10).map q2_project

/-- The double `$unwind` of q3: one document per country, HDI entry and
generation-per-capita entry.  (The subsequent `$match` on existence of the
two `ano` fields is the identity here: the migration scripts put an `ano`
in every series entry, which the `Entrada` type makes intrinsic.) -/
def q3_unwound (paises : List Pais) : List (Pais × Entrada × Entrada) :=
  paises.flatMap fun p =>
    (p.idh.getD []).flatMap fun e1 =>
      (p.geracao_energia_renovavel_per_capita.getD []).map fun e2 => (p, e1, e2)

/-- The `$redact` of q3: keep a document only when its HDI year equals its
generation year. -/
def q3_redacted (paises : List Pais) : List (Pais × Entrada × Entrada) :=
  (q3_unwound paises).filter fun d => d.2.1.ano = d.2.2.ano

/-- The value of a q3 `$group` together with the `$project` that adds the
two means (`$sum` accumulator divided by the `$sum: 1` count). -/
structure Q3Group where
  ano : Int
  idh_valores : List ℚ
  geracao_valores : List ℚ
  mean_idh : ℚ
  mean_geracao : ℚ
deriving DecidableEq, Repr

/-- The q3 `$group` by HDI year with its `$push`/`$sum` accumulators,
followed by the `$project` computing the means. -/
def q3_groups (paises : List Pais) : List Q3Group :=
  (groupBy (fun d => d.2.1.ano) (q3_redacted paises)).map fun g =>
    { ano := g.1
      idh_valores := g.2.map fun d => d.2.1.valor
      geracao_valores := g.2.map fun d => d.2.2.valor
      mean_idh := (g.2.map fun d => d.2.1.valor).sum / (g.2.length : ℚ)
      mean_geracao := (g.2.map fun d => d.2.2.valor).sum / (g.2.length : ℚ) }

/-- The q3 `covariance` field: `$reduce` over the `$zip` of the two pushed
value arrays, accumulating `(hdi - mean_hdi) * (gen - mean_gen)`. -/
def covarianceOf (g : Q3Group) : ℚ :=
  (g.idh_valores.zip g.geracao_valores).foldl
    (fun acc t => acc + (t.1 - g.mean_idh) * (t.2 - g.mean_geracao)) 0

/-- The radicand of the q3 `stdDevIdh` field: `$reduce` accumulating the
squared deviations of the HDI values (no division by the count before the
square root, exactly as in the source). -/
def sqDevIdh (g : Q3Group) : ℚ :=
  g.idh_valores.foldl (fun acc a => acc + (a - g.mean_idh) ^ 2) 0

/-- The radicand of the q3 `stdDevGeracao` field. -/
def sqDevGeracao (g : Q3Group) : ℚ :=
  g.geracao_valores.foldl (fun acc a => acc + (a - g.mean_geracao) ^ 2) 0

/-- The q3 `stdDevIdh` field: `$sqrt` of the accumulated squared
deviations. -/
noncomputable def stdDevIdh (g : Q3Group) : ℝ := Real.sqrt (sqDevIdh g)

/-- The q3 `stdDevGeracao` field. -/
noncomputable def stdDevGeracao (g : Q3Group) : ℝ := Real.sqrt (sqDevGeracao g)

/-- Output row of query 3. -/
structure Q3Row where
  ano : Int
  correlacao_idh_geracao : ℝ

open Classical in
/-- The final `$project` of q3: the correlation is `0` when either standard
deviation is `0`, and otherwise the covariance divided by their product. -/
noncomputable def q3_row (g : Q3Group) : Q3Row :=
  { ano := g.ano
    correlacao_idh_geracao :=
      if stdDevIdh g = 0 ∨ stdDevGeracao g = 0 then 0
      else (covarianceOf g : ℝ) / (stdDevIdh g * stdDevGeracao g) }

/-- Query 3: per-year correlation between HDI and renewable generation per
capita, sorted ascending by year. -/
noncomputable def q3_pipeline (paises : List Pais) : List Q3Row :=
  sortDescBy (fun r => -r.ano) ((q3_groups paises).map q3_row)

/-- Output row of query 4. -/
structure Q4Row where
  agente : String
  total_usinas : Nat
deriving DecidableEq, Repr

/-- Query 4: owning agents with more than one plant, sorted descending by
plant count. -/
def q4_pipeline (usinas : List Usina) : List Q4Row :=
  sortDescBy (fun r => r.total_usinas)
    (((groupBy (fun u => u.agente_proprietario) usinas).map fun g =>
        { agente := g.1, total_usinas := g.2.length : Q4Row }).filter
      fun r => 1 < r.total_usinas)

/-- Output row of query 5. -/
structure Q5Row where
  combustivel : String
  qtd_usinas : Nat
deriving DecidableEq, Repr

/-- The `$unwind` of `unidades_geradoras` shared by q5, q6 and q8: one
document per plant and generating unit. -/
def unidades_unwound (usinas : List Usina) : List (Usina × Unidade) :=
  usinas.flatMap fun u => u.unidades_geradoras.map fun g => (u, g)

/-- Query 5: number of distinct plants per fuel type (`$addToSet` of the
plant `_id`, then `$size`), sorted descending by count. -/
def q5_pipeline (usinas : List Usina) : List Q5Row :=
  sortDescBy (fun r => r.qtd_usinas)
    ((groupBy (fun d => d.2.combustivel) (unidades_unwound usinas)).map fun g =>
      { combustivel := g.1, qtd_usinas := ((g.2.map fun d => d.1.id).dedup).length })

/-- Output row of query 6. -/
structure Q6Row where
  estado : String
  capacidade_total_mw : ℚ
deriving DecidableEq, Repr

/-- Query 6: total generating capacity per state, rounded to 2 decimals and
sorted descending. -/
def q6_pipeline (usinas : List Usina) : List Q6Row :=
  sortDescBy (fun r => r.capacidade_total_mw)
    ((groupBy (fun d => d.1.estado.nome) (unidades_unwound usinas)).map fun g =>
      { estado := g.1
        capacidade_total_mw := round2 (g.2.map fun d => d.2.potencia_efetiva_mw).sum })

/-- Output row of query 7. -/
structure Q7Row where
  estado : String
  total_usinas : Nat
  usinas_renovaveis : Nat
  perc_renovaveis : ℚ
deriving DecidableEq, Repr

/-- The concatenation of the two `$facet` branches of q7 after their
`$group` stages: a document from the `total_por_estado` branch carries only
a `total` field, one from the `renovaveis_por_estado` branch only a
`renovaveis` field (the missing field is `none`; the later `$sum`
accumulator treats a missing field as 0). -/
def q7_all_data (usinas : List Usina) : List (String × Option Nat × Option Nat) :=
  ((groupBy (fun u => u.estado.nome) usinas).map fun g =>
      (g.1, some g.2.length, (none : Option Nat))) ++
  ((groupBy (fun u => u.estado.nome) (usinas.filter temUnidadeRenovavel)).map fun g =>
      (g.1, (none : Option Nat), some g.2.length))

/-- Query 7: per-state total and renewable plant counts and the renewable
percentage (0 when the total is 0), sorted descending by percentage.  (The
source's `$ifNull` on `renovaveis` is subsumed: after the `$sum`
accumulator the field is never null.) -/
def q7_pipeline (usinas : List Usina) : List Q7Row :=
  sortDescBy (fun r => r.perc_renovaveis)
    ((groupBy Prod.fst (q7_all_data usinas)).map fun g =>
      let total := (g.2.map fun d => d.2.1.getD 0).sum
      let renov := (g.2.map fun d => d.2.2.getD 0).sum
      { estado := g.1
        total_usinas := total
        usinas_renovaveis := renov
        perc_renovaveis :=
          if total = 0 then 0 else round2 ((renov : ℚ) / (total : ℚ) * 100) })

/-- Output row of query 8. -/
structure Q8Row where
  estado : String
  capacidade_renovavel_mw : ℚ
  percentual_do_total_nacional : ℚ
  investimento_nacional_total_usd : ℚ
deriving DecidableEq, Repr

/-- The documents both q8 `$facet` branches reduce over: plants with at
least one renewable unit, unwound into units, re-filtered to the renewable
units. -/
def q8_renewUnits (usinas : List Usina) : List (Usina × Unidade) :=
  ((usinas.filter temUnidadeRenovavel).flatMap fun u =>
      u.unidades_geradoras.map fun g => (u, g)).filter fun d => isRenovavel d.2

/-- The `capacidade_por_estado` branch of q8's `$facet`: renewable capacity
summed per state. -/
def q8_capacidade_por_estado (usinas : List Usina) : List (String × ℚ) :=
  (groupBy (fun d => d.1.estado.nome) (q8_renewUnits usinas)).map fun g =>
    (g.1, (g.2.map fun d => d.2.potencia_efetiva_mw).sum)

/-- The `total_nacional` branch of q8's `$facet`: the nationwide renewable
capacity, grouped under the single key `null`, hence an empty list when
there is no renewable unit at all. -/
def q8_total_nacional (usinas : List Usina) : List ℚ :=
  (groupBy (fun _ => ()) (q8_renewUnits usinas)).map fun g =>
    (g.2.map fun d => d.2.potencia_efetiva_mw).sum

/-- Query 8: renewable capacity per state against the national total and
the all-years Brazilian clean energy investment sum, sorted descending by
the (rounded) capacity.  The two `$unwind`s and the `$lookup` + `$unwind`
on the Brazil document are the three nested `flatMap`s. -/
def q8_pipeline (usinas : List Usina) (paises : List Pais) : List Q8Row :=
  sortDescBy (fun r => r.capacidade_renovavel_mw)
    ((q8_total_nacional usinas).flatMap fun t =>
      (q8_capacidade_por_estado usinas).flatMap fun ce =>
        (paises.filter fun p => p.nome = "Brazil").map fun br =>
          { estado := ce.1
            capacidade_renovavel_mw := round2 ce.2
            percentual_do_total_nacional :=
              if t = 0 then 0 else round2 (ce.2 / t * 100)
            investimento_nacional_total_usd :=
              ((br.investimento_energia_limpa.getD []).map fun e => e.valor).sum })

/-! Spec-side definitions.  These follow the wording of the specification
and of the claims (inner join per country and year, Pearson-style formula,
per-state sums, ...), to be compared with the pipeline embeddings above. -/

/-- The paired samples of report 3 for year `y` according to the spec: the
countries having both an HDI entry and a generation-per-capita entry for
exactly year `y`, each contributing its pair of values, in collection
order. -/
def pairsAt (paises : List Pais) (y : Int) : List (ℚ × ℚ) :=
  paises.filterMap fun p =>
    match (p.idh.getD []).find? (fun e => e.ano = y),
        (p.geracao_energia_renovavel_per_capita.getD []).find? (fun e => e.ano = y) with
    | some e1, some e2 => some (e1.valor, e2.valor)
    | _, _ => none

/-- Spec-side mean of the first components (`mean_hdi`). -/
def meanFst (ps : List (ℚ × ℚ)) : ℚ := (ps.map Prod.fst).sum / (ps.length : ℚ)

/-- Spec-side mean of the second components (`mean_gen`). -/
def meanSnd (ps : List (ℚ × ℚ)) : ℚ := (ps.map Prod.snd).sum / (ps.length : ℚ)

/-- Spec-side covariance sum `Σ (hdi_i - mean_hdi) * (gen_i - mean_gen)`. -/
def covSum (ps : List (ℚ × ℚ)) : ℚ :=
  (ps.map fun t => (t.1 - meanFst ps) * (t.2 - meanSnd ps)).sum

/-- Spec-side `Σ (hdi_i - mean_hdi)²` (no division by N). -/
def sqSumFst (ps : List (ℚ × ℚ)) : ℚ :=
  (ps.map fun t => (t.1 - meanFst ps) ^ 2).sum

/-- Spec-side `Σ (gen_i - mean_gen)²` (no division by N). -/
def sqSumSnd (ps : List (ℚ × ℚ)) : ℚ :=
  (ps.map fun t => (t.2 - meanSnd ps) ^ 2).sum

open Classical in
/-- The correlation formula of the spec and of claim C1: covariance over
the product of the square roots of the two sums of squared deviations
(no division by N inside the roots), and `0` when either root is `0`. -/
noncomputable def pearsonSpec (ps : List (ℚ × ℚ)) : ℝ :=
  if Real.sqrt (sqSumFst ps) = 0 ∨ Real.sqrt (sqSumSnd ps) = 0 then 0
  else (covSum ps : ℝ) / (Real.sqrt (sqSumFst ps) * Real.sqrt (sqSumSnd ps))

/-- The values entering the global average of report 1 for year `y`
according to the spec: the percentage of each country having an
electricity-access entry for year `y`. -/
def q1_valoresAno (paises : List Pais) (y : Int) : List ℚ :=
  paises.filterMap fun p =>
    ((p.acesso_eletricidade.getD []).find? fun e => e.ano = y).map Entrada.valor

/-- The Brazil value of report 1 for year `y` according to the spec: the
percentage of the country named `Brazil` for year `y`, or `none` when that
country has no entry for the year (or does not exist). -/
def q1_brasilAno (paises : List Pais) (y : Int) : Option ℚ :=
  (paises.find? fun p => p.nome = "Brazil").bind fun p =>
    ((p.acesso_eletricidade.getD []).find? fun e => e.ano = y).map Entrada.valor

/-- A plant having at least one generating unit of fuel type `f` (the
spec-side notion counted by report 5). -/
def temCombustivel (u : Usina) (f : String) : Prop :=
  ∃ g ∈ u.unidades_geradoras, g.combustivel = f

instance (u : Usina) (f : String) : Decidable (temCombustivel u f) := by
  unfold temCombustivel; infer_instance

/-- The renewable generating units of a plant. -/
def unidadesRenovaveis (u : Usina) : List Unidade :=
  u.unidades_geradoras.filter isRenovavel

/-- The spec-side renewable capacity of state `s`: the sum of the effective
capacities of the renewable generating units of the plants of state `s`
that have at least one renewable unit. -/
def capacidadeRenovavelEstado (usinas : List Usina) (s : String) : ℚ :=
  ((usinas.filter fun u => u.estado.nome = s ∧ temUnidadeRenovavel u).map fun u =>
    ((unidadesRenovaveis u).map Unidade.potencia_efetiva_mw).sum).sum

/-- The spec-side nationwide renewable capacity: the same sum over all
states. -/
def capacidadeRenovavelTotal (usinas : List Usina) : ℚ :=
  ((usinas.filter temUnidadeRenovavel).map fun u =>
    ((unidadesRenovaveis u).map Unidade.potencia_efetiva_mw).sum).sum

/-- The spec-side national investment figure of report 8: the sum of the
entire clean-energy-investment series of the country named `Brazil`. -/
def investimentoBrasilTotal (paises : List Pais) : ℚ :=
  ((((paises.find? fun p => p.nome = "Brazil").bind
      Pais.investimento_energia_limpa).getD []).map Entrada.valor).sum

/-! Concrete fixtures used by witnesses and counterexamples. -/

/-- Fixture: a country with one HDI, electricity-access, renewable-access
and generation entry. -/
def paisA : Pais :=
  { nome := "Argentina"
    idh := some [⟨2000, 1⟩]
    acesso_eletricidade := some [⟨2020, 80⟩]
    acesso_energia_renovavel := some [⟨2020, 10⟩]
    investimento_energia_limpa := none
    geracao_energia_renovavel_per_capita := some [⟨2000, 1⟩] }

/-- Fixture: a second country whose paired (hdi, generation) values lie on
the same positive-slope line as `paisA`. -/
def paisB : Pais :=
  { nome := "Bolivia"
    idh := some [⟨2000, 2⟩]
    acesso_eletricidade := some [⟨2020, 90⟩]
    acesso_energia_renovavel := some [⟨2020, 90⟩]
    investimento_energia_limpa := none
    geracao_energia_renovavel_per_capita := some [⟨2000, 2⟩] }

/-- Fixture: a Brazil country document with an empty investment series
field absent. -/
def paisBrasil : Pais :=
  { nome := "Brazil"
    idh := none
    acesso_eletricidade := none
    acesso_energia_renovavel := none
    investimento_energia_limpa := none
    geracao_energia_renovavel_per_capita := none }

/-- Fixture country collection for the q1/q3 witnesses. -/
def paisesEx : List Pais := [paisA, paisB]

/-- Fixture: a single plant with one renewable unit of 10 MW. -/
def usina1 : Usina :=
  { id := 1
    agente_proprietario := "AG"
    estado := ⟨"SP"⟩
    unidades_geradoras := [⟨"HÍDRICA", 10⟩] }

/-- Fixture plant collection for the q5/q7/q8 witnesses. -/
def usinasEx : List Usina := [usina1]

/-- Fixture: a plant whose only renewable unit has capacity 0 MW (makes
the q8 national total 0 while still emitting a row). -/
def usina0 : Usina :=
  { id := 1
    agente_proprietario := "AG"
    estado := ⟨"SP"⟩
    unidades_geradoras := [⟨"HÍDRICA", 0⟩] }

/-- Fixture: a plant whose only renewable unit has capacity 1/1000 MW,
whose state sum is changed by the `$round` to 2 decimals. -/
def usinaMilli : Usina :=
  { id := 1
    agente_proprietario := "AG"
    estado := ⟨"SP"⟩
    unidades_geradoras := [⟨"HÍDRICA", 1/1000⟩] }

/-- Fixture: a plant with a renewable unit of negative capacity. -/
def usinaNeg : Usina :=
  { id := 1
    agente_proprietario := "AG"
    estado := ⟨"RJ"⟩
    unidades_geradoras := [⟨"HÍDRICA", -1⟩] }

/-- Fixture: a plant with a renewable unit of capacity 2 MW, in another
state than `usinaNeg`. -/
def usinaPos : Usina :=
  { id := 2
    agente_proprietario := "AG"
    estado := ⟨"SP"⟩
    unidades_geradoras := [⟨"HÍDRICA", 2⟩] }

/-- The q3 group of the single-pair year of `paisesEx` restricted to
`paisA`, used to exhibit the zero-variance guard. -/
def q3GroupEx : Q3Group :=
  { ano := 2000
    idh_valores := [1]
    geracao_valores := [1]
    mean_idh := 1
    mean_geracao := 1 }

/-! Generic lemmas about the sort embedding. -/

open List

theorem insDescBy_perm {α β : Type} [LinearOrder β] (key : α → β) (a : α) (l : List α) :
    insDescBy key a l ~ a :: l := by
  induction l with
  | nil => rfl
  | cons b l ih =>
    rw [insDescBy]
    split
    · rfl
    · exact (ih.cons b).trans (List.Perm.swap a b l)

theorem sortDescBy_perm {α β : Type} [LinearOrder β] (key : α → β) (l : List α) :
    sortDescBy key l ~ l := by
  induction l with
  | nil => rfl
  | cons a l ih =>
    simpa [sortDescBy] using (insDescBy_perm key a (sortDescBy key l)).trans (ih.cons a)

theorem mem_insDescBy {α β : Type} [LinearOrder β] {key : α → β} {a x : α} {l : List α} :
    x ∈ insDescBy key a l ↔ x = a ∨ x ∈ l := by
  rw [(insDescBy_perm key a l).mem_iff, List.mem_cons]

theorem insDescBy_sorted {α β : Type} [LinearOrder β] (key : α → β) (a : α) {l : List α}
    (h : l.Pairwise fun x y => key y ≤ key x) :
    (insDescBy key a l).Pairwise fun x y => key y ≤ key x := by
  induction l with
  | nil => simp [insDescBy]
  | cons b l ih =>
    rw [List.pairwise_cons] at h
    rw [insDescBy]
    split
    · rename_i hba
      refine List.pairwise_cons.2 ⟨?_, List.pairwise_cons.2 h⟩
      intro y hy
      rcases List.mem_cons.1 hy with rfl | hy
      · exact hba
      · exact (h.1 y hy).trans hba
    · rename_i hba
      refine List.pairwise_cons.2 ⟨?_, ih h.2⟩
      intro y hy
      rcases mem_insDescBy.1 hy with rfl | hy
      · exact (lt_of_not_le hba).le
      · exact h.1 y hy

theorem sortDescBy_sorted {α β : Type} [LinearOrder β] (key : α → β) (l : List α) :
    (sortDescBy key l).Pairwise fun x y => key y ≤ key x := by
  induction l with
  | nil => simp [sortDescBy]
  | cons a l ih => simpa [sortDescBy] using insDescBy_sorted key a ih

/-! Generic lemmas about the group embedding and small list facts. -/

theorem groupBy_map_fst {α κ : Type} [DecidableEq κ] (key : α → κ) (xs : List α) :
    (groupBy key xs).map Prod.fst = (xs.map key).dedup := by
  unfold groupBy
  rw [List.map_map,
    show (Prod.fst ∘ fun k => (k, xs.filter fun x => key x = k)) = id from rfl,
    List.map_id]

theorem mem_groupBy {α κ : Type} [DecidableEq κ] {key : α → κ} {xs : List α}
    {g : κ × List α} (hg : g ∈ groupBy key xs) :
    g.1 ∈ (xs.map key).dedup ∧ g.2 = xs.filter fun x => key x = g.1 := by
  unfold groupBy at hg
  obtain ⟨k, hk, rfl⟩ := List.mem_map.1 hg
  exact ⟨hk, rfl⟩

theorem foldl_add_map {α : Type} (f : α → ℚ) (l : List α) (c : ℚ) :
    l.foldl (fun acc x => acc + f x) c = c + (l.map f).sum := by
  induction l generalizing c with
  | nil => simp
  | cons a l ih => simp [ih, add_assoc]

theorem filterMap_eq_flatMap_toList {α β : Type} (f : α → Option β) (l : List α) :
    l.filterMap f = l.flatMap fun x => (f x).toList := by
  induction l with
  | nil => rfl
  | cons a l ih =>
    cases h : f a <;> simp [List.filterMap_cons, List.flatMap_cons, h, ih]

theorem head?_toList {β : Type} (o : Option β) : o.toList.head? = o := by
  cases o <;> rfl

theorem sum_map_filter_add {α : Type} (p : α → Prop) [DecidablePred p] (f : α → ℚ)
    (xs : List α) :
    ((xs.filter fun x => p x).map f).sum + ((xs.filter fun x => ¬ p x).map f).sum =
      (xs.map f).sum := by
  induction xs with
  | nil => simp
  | cons a l ih =>
    by_cases h : p a <;> simp [List.filter_cons, h, ← ih] <;> ring

theorem sum_over_keys {α κ : Type} [DecidableEq κ] (f : α → ℚ) (key : α → κ) :
    ∀ (ks : List κ) (xs : List α), ks.Nodup → (∀ x ∈ xs, key x ∈ ks) →
      (ks.map fun k => ((xs.filter fun x => key x = k).map f).sum).sum = (xs.map f).sum := by
  intro ks
  induction ks with
  | nil =>
    intro xs _ hcov
    cases xs with
    | nil => simp
    | cons a l => exact absurd (hcov a (by simp)) (by simp)
  | cons k ks ih =>
    intro xs hnd hcov
    rw [List.nodup_cons] at hnd
    have hsub : ∀ k2 ∈ ks, xs.filter (fun x => key x = k2) =
        (xs.filter fun x => ¬ key x = k).filter (fun x => key x = k2) := by
      intro k2 hk2
      rw [List.filter_filter]
      apply List.filter_congr
      intro x _
      have hk2k : k2 ≠ k := fun h => hnd.1 (h ▸ hk2)
      by_cases hx : key x = k2
      · simp [hx, hk2k]
      · simp [hx]
    have hmap : ks.map (fun k2 => ((xs.filter fun x => key x = k2).map f).sum) =
        ks.map (fun k2 =>
          (((xs.filter fun x => ¬ key x = k).filter fun x => key x = k2).map f).sum) := by
      apply List.map_congr_left
      intro k2 hk2
      rw [hsub k2 hk2]
    rw [List.map_cons, List.sum_cons, hmap,
      ih (xs.filter fun x => ¬ key x = k) hnd.2 ?_, sum_map_filter_add]
    intro x hx
    have hxk : ¬ key x = k := by simpa using (List.mem_filter.1 hx).2
    rcases List.mem_cons.1 (hcov x (List.mem_of_mem_filter hx)) with h | h
    · exact absurd h hxk
    · exact h

theorem groupBy_sum_map {α κ : Type} [DecidableEq κ] (key : α → κ) (xs : List α)
    (f : α → ℚ) :
    ((groupBy key xs).map fun g => (g.2.map f).sum).sum = (xs.map f).sum := by
  unfold groupBy
  rw [List.map_map]
  exact sum_over_keys f key _ xs (xs.map key).nodup_dedup
    (fun x hx => List.mem_dedup.2 (List.mem_map_of_mem key hx))

theorem nodup_filter_single {κ : Type} [DecidableEq κ] {l : List κ} (h : l.Nodup)
    (s : κ) :
    l.filter (fun k => k = s) = if s ∈ l then [s] else [] := by
  induction l with
  | nil => simp
  | cons a l ih =>
    rw [List.nodup_cons] at h
    by_cases ha : a = s
    · subst ha
      have : l.filter (fun k => k = a) = [] :=
        List.filter_eq_nil_iff.2 fun b hb hba => h.1 (of_decide_eq_true hba ▸ hb)
      simp [List.filter_cons, this]
    · simp [List.filter_cons, ha, ih h.2, Ne.symm ha]

theorem groupBy_filter_key {α κ : Type} [DecidableEq κ] (key : α → κ) (xs : List α)
    (s : κ) :
    (groupBy key xs).filter (fun g => g.1 = s) =
      if s ∈ (xs.map key).dedup then [(s, xs.filter fun x => key x = s)] else [] := by
  unfold groupBy
  rw [List.filter_map]
  have : ((xs.map key).dedup.filter fun k => k = s) =
      if s ∈ (xs.map key).dedup then [s] else [] :=
    nodup_filter_single (xs.map key).nodup_dedup s
  rw [show ((fun g : κ × List α => decide (g.1 = s)) ∘
      fun k => (k, xs.filter fun x => key x = k)) = fun k => decide (k = s) from rfl, this]
  split <;> simp

theorem sum_sq_nonneg (l : List ℚ) (m : ℚ) :
    0 ≤ (l.map fun a => (a - m) ^ 2).sum := by
  apply List.sum_nonneg
  intro x hx
  obtain ⟨a, _, rfl⟩ := List.mem_map.1 hx
  positivity

theorem sum_sq_eq_zero_iff (l : List ℚ) (m : ℚ) :
    (l.map fun a => (a - m) ^ 2).sum = 0 ↔ ∀ a ∈ l, a = m := by
  induction l with
  | nil => simp
  | cons a l ih =>
    simp only [List.map_cons, List.sum_cons, List.mem_cons]
    constructor
    · intro h
      have h1 : (0:ℚ) ≤ (a - m) ^ 2 := sq_nonneg _
      have h2 := sum_sq_nonneg l m
      have ha : (a - m) ^ 2 = 0 := le_antisymm (by linarith) h1
      have hl : (l.map fun a => (a - m) ^ 2).sum = 0 := by linarith
      intro b hb
      rcases hb with rfl | hb
      · have := pow_eq_zero_iff (n := 2) (by norm_num) |>.1 ha
        linarith [sub_eq_zero.1 this]
      · exact (ih.1 hl) b hb
    · intro h
      have ha : a = m := h a (Or.inl rfl)
      have hl : ∀ b ∈ l, b = m := fun b hb => h b (Or.inr hb)
      simp [ha, ih.2 hl]

/-! Lemmas relating filters over series with at-most-one-entry-per-year to
`find?`, the formal counterpart of the data-model invariant used by the
inner joins of reports 1 and 3. -/

theorem filter_ano_eq_find (y : Int) :
    ∀ {l : List Entrada}, (l.map Entrada.ano).Nodup →
      l.filter (fun e => e.ano = y) = (l.find? fun e => e.ano = y).toList := by
  intro l
  induction l with
  | nil => simp
  | cons a l ih =>
    intro h
    rw [List.map_cons, List.nodup_cons] at h
    by_cases ha : a.ano = y
    · rw [List.filter_cons_of_pos (by simpa using ha),
        List.find?_cons_of_pos _ (by simpa using ha)]
      have hnil : l.filter (fun e => e.ano = y) = [] := by
        refine List.filter_eq_nil_iff.2 fun b hb hby => h.1 ?_
        rw [ha, ← of_decide_eq_true hby]
        exact List.mem_map_of_mem Entrada.ano hb
      simp [hnil]
    · rw [List.filter_cons_of_neg (by simpa using ha),
        List.find?_cons_of_neg _ (by simpa using ha)]
      exact ih h.2

theorem flatMap_congr_left {α β : Type} {f g : α → List β} (l : List α)
    (h : ∀ x ∈ l, f x = g x) : l.flatMap f = l.flatMap g := by
  rw [List.flatMap_def, List.flatMap_def, List.map_congr_left h]

theorem flatMap_nil_of {α β : Type} {f : α → List β} {l : List α}
    (h : ∀ x ∈ l, f x = []) : l.flatMap f = [] := by
  induction l with
  | nil => rfl
  | cons a l ih =>
    rw [List.flatMap_cons, h a (by simp), List.nil_append]
    exact ih fun x hx => h x (by simp [hx])

theorem flatMap_if_filter {α β : Type} (P : α → Prop) [DecidablePred P]
    (F : α → List β) (l : List α) :
    (l.flatMap fun x => if P x then F x else []) = (l.filter fun x => P x).flatMap F := by
  induction l with
  | nil => rfl
  | cons a l ih => by_cases h : P a <;> simp [List.filter_cons, h, ih]

theorem series_filter_eq_find (p : Pais) (l : List Entrada) (y : Int)
    (h : (l.map Entrada.ano).Nodup) :
    ((l.map fun e => (p, e)).filter fun d => d.2.ano = y) =
      (l.find? fun e => e.ano = y).toList.map fun e => (p, e) := by
  rw [List.filter_map,
    show ((fun d : Pais × Entrada => decide (d.2.ano = y)) ∘ fun e => (p, e)) =
      (fun e => decide (e.ano = y)) from rfl,
    filter_ano_eq_find y h]

theorem product_filter_eq_match (p : Pais) (l1 l2 : List Entrada) (y : Int)
    (h1 : (l1.map Entrada.ano).Nodup) (h2 : (l2.map Entrada.ano).Nodup) :
    (((l1.flatMap fun e1 => l2.map fun e2 => (p, e1, e2)).filter
        fun d => d.2.1.ano = d.2.2.ano).filter fun d => d.2.1.ano = y) =
      match l1.find? (fun e => e.ano = y), l2.find? (fun e => e.ano = y) with
      | some e1, some e2 => [(p, e1, e2)]
      | _, _ => [] := by
  rw [List.filter_filter]
  rw [List.filter_congr (l := l1.flatMap fun e1 => l2.map fun e2 => (p, e1, e2))
    (q := fun d => decide (d.2.1.ano = y) && decide (d.2.2.ano = y)) ?_]
  · rw [List.filter_flatMap]
    have hinner : ∀ e1 ∈ l1,
        ((l2.map fun e2 => (p, e1, e2)).filter
          fun d => decide (d.2.1.ano = y) && decide (d.2.2.ano = y)) =
        if e1.ano = y then (l2.filter fun e => e.ano = y).map fun e2 => (p, e1, e2)
        else [] := by
      intro e1 _
      rw [List.filter_map]
      by_cases he1 : e1.ano = y
      · rw [if_pos he1]
        rw [show ((fun d : Pais × Entrada × Entrada =>
            decide (d.2.1.ano = y) && decide (d.2.2.ano = y)) ∘ fun e2 => (p, e1, e2)) =
          (fun e2 => decide (e1.ano = y) && decide (e2.ano = y)) from rfl]
        simp [he1]
      · rw [if_neg he1]
        rw [show ((fun d : Pais × Entrada × Entrada =>
            decide (d.2.1.ano = y) && decide (d.2.2.ano = y)) ∘ fun e2 => (p, e1, e2)) =
          (fun e2 => decide (e1.ano = y) && decide (e2.ano = y)) from rfl]
        simp [he1]
    rw [flatMap_congr_left _ hinner, flatMap_if_filter, filter_ano_eq_find y h1,
      filter_ano_eq_find y h2]
    cases l1.find? (fun e => e.ano = y) with
    | none => rfl
    | some e1 =>
      cases l2.find? (fun e => e.ano = y) with
      | none => rfl
      | some e2 => rfl
  · intro d _
    by_cases hB : d.2.1.ano = y
    · by_cases hC : d.2.2.ano = y
      · simp [hB, hC, hB.trans hC.symm]
      · have hA : ¬ d.2.1.ano = d.2.2.ano := fun h => hC (h.symm.trans hB)
        have hCs : ¬ y = d.2.2.ano := fun h => hC h.symm
        simp [hB, hC, hA, hCs]
    · simp [hB]

/-! Characterization of the q1 groups. -/

theorem q1_unwound_filter (paises : List Pais) (y : Int)
    (h : ∀ p ∈ paises, ((p.acesso_eletricidade.getD []).map Entrada.ano).Nodup) :
    (q1_unwound paises).filter (fun d => d.2.ano = y) =
      paises.flatMap fun p =>
        ((p.acesso_eletricidade.getD []).find? fun e => e.ano = y).toList.map
          fun e => (p, e) := by
  unfold q1_unwound
  rw [List.filter_flatMap]
  exact flatMap_congr_left _ fun p hp => series_filter_eq_find p _ y (h p hp)

theorem q1_filter_map_valor (paises : List Pais) (y : Int)
    (h : ∀ p ∈ paises, ((p.acesso_eletricidade.getD []).map Entrada.ano).Nodup) :
    ((q1_unwound paises).filter fun d => d.2.ano = y).map (fun d => d.2.valor) =
      q1_valoresAno paises y := by
  rw [q1_unwound_filter paises y h, List.map_flatMap]
  unfold q1_valoresAno
  rw [filterMap_eq_flatMap_toList]
  apply flatMap_congr_left
  intro p _
  cases hf : (p.acesso_eletricidade.getD []).find? fun e => e.ano = y <;> simp [hf]

theorem q1_group_brasil (paises : List Pais) (y : Int)
    (h : ∀ p ∈ paises, ((p.acesso_eletricidade.getD []).map Entrada.ano).Nodup)
    (hbr : (paises.filter fun p => p.nome = "Brazil").length ≤ 1) :
    (((q1_unwound paises).filter fun d => d.2.ano = y).filterMap fun d =>
        if d.1.nome = "Brazil" then some d.2.valor else none).head? =
      q1_brasilAno paises y := by
  rw [q1_unwound_filter paises y h, List.filterMap_flatMap]
  have hB : ∀ p : Pais,
      ((((p.acesso_eletricidade.getD []).find? fun e => e.ano = y).toList.map
        fun e => (p, e)).filterMap fun d =>
          if d.1.nome = "Brazil" then some d.2.valor else none) =
      if p.nome = "Brazil" then
        (((p.acesso_eletricidade.getD []).find? fun e => e.ano = y).map
          Entrada.valor).toList
      else [] := by
    intro p
    cases hf : (p.acesso_eletricidade.getD []).find? fun e => e.ano = y <;>
      by_cases hp : p.nome = "Brazil" <;> simp [hp]
  rw [flatMap_congr_left _ fun p _ => hB p]
  clear h
  induction paises with
  | nil => rfl
  | cons p rest ih =>
    rw [List.flatMap_cons]
    by_cases hp : p.nome = "Brazil"
    · rw [if_pos hp]
      unfold q1_brasilAno
      rw [List.find?_cons_of_pos _ (by simpa using hp)]
      cases hf : (p.acesso_eletricidade.getD []).find? fun e => e.ano = y with
      | some e => simp [hf]
      | none =>
        have h0 : (rest.filter fun q => q.nome = "Brazil") = [] := by
          rw [List.filter_cons_of_pos (by simpa using hp)] at hbr
          simp only [List.length_cons] at hbr
          exact List.length_eq_zero.1 (by omega)
        have hrest : ∀ q ∈ rest, ¬ q.nome = "Brazil" := by
          intro q hq hqB
          have := List.filter_eq_nil_iff.1 h0 q hq
          simp [hqB] at this
        rw [flatMap_nil_of fun q hq => if_neg (hrest q hq)]
        simp [hf]
    · rw [if_neg hp, List.nil_append]
      rw [List.filter_cons_of_neg (by simpa using hp)] at hbr
      rw [ih hbr]
      unfold q1_brasilAno
      rw [List.find?_cons_of_neg _ (by simpa using hp)]

theorem q1_pipeline_map_ano (paises : List Pais) :
    (q1_pipeline paises).map Q1Row.ano ~ ((q1_unwound paises).map fun d => d.2.ano).dedup := by
  unfold q1_pipeline
  refine ((sortDescBy_perm _ _).map Q1Row.ano).trans ?_
  rw [List.map_map]
  have hcomp : ((groupBy (fun d : Pais × Entrada => d.2.ano) (q1_unwound paises)).map
      (Q1Row.ano ∘ fun g =>
        ({ ano := g.1
           media_global := round2 ((g.2.map fun d => d.2.valor).sum / (g.2.length : ℚ))
           acesso_brasil := (g.2.filterMap fun d =>
             if d.1.nome = "Brazil" then some d.2.valor else none).head? } : Q1Row))) =
      (groupBy (fun d : Pais × Entrada => d.2.ano) (q1_unwound paises)).map Prod.fst :=
    List.map_congr_left fun g _ => rfl
  rw [hcomp, groupBy_map_fst]

/-- Claim C3: for every year appearing in any country's electricity-access
series, report 1 emits exactly one row; its global average is the rounded
arithmetic mean of the percentages of exactly the countries having an entry
for that year; its Brazil field is the percentage of the country named
`Brazil` for that year, or `none` when there is no such entry; rows are
sorted ascending by year.  (Hypotheses: the data-model invariant of at most
one series entry per year, and at most one country named Brazil.) -/
theorem claim_C3 (paises : List Pais)
    (hN : ∀ p ∈ paises, ((p.acesso_eletricidade.getD []).map Entrada.ano).Nodup)
    (hbr : (paises.filter fun p => p.nome = "Brazil").length ≤ 1) :
    (∀ r ∈ q1_pipeline paises,
        r.media_global =
          round2 ((q1_valoresAno paises r.ano).sum /
            ((q1_valoresAno paises r.ano).length : ℚ)) ∧
        r.acesso_brasil = q1_brasilAno paises r.ano) ∧
    ((q1_pipeline paises).map Q1Row.ano).Nodup ∧
    (q1_pipeline paises).Pairwise (fun r s => r.ano ≤ s.ano) ∧
    (∀ y : Int, (∃ r ∈ q1_pipeline paises, r.ano = y) ↔
      ∃ p ∈ paises, ∃ e ∈ p.acesso_eletricidade.getD [], e.ano = y) := by
  refine ⟨?_, ?_, ?_, ?_⟩
  · intro r hr
    have hr2 := (sortDescBy_perm (fun r : Q1Row => -r.ano) _).mem_iff.1 hr
    obtain ⟨g, hg, rfl⟩ := List.mem_map.1 hr2
    obtain ⟨hk, hdocs⟩ := mem_groupBy hg
    constructor
    · show round2 ((g.2.map fun d => d.2.valor).sum / (g.2.length : ℚ)) = _
      rw [hdocs, q1_filter_map_valor paises g.1 hN,
        show ((q1_unwound paises).filter fun x => x.2.ano = g.1).length =
          (q1_valoresAno paises g.1).length by
            rw [← q1_filter_map_valor paises g.1 hN, List.length_map]]
    · show ((g.2.filterMap fun d =>
          if d.1.nome = "Brazil" then some d.2.valor else none).head?) = _
      rw [hdocs]
      exact q1_group_brasil paises g.1 hN hbr
  · rw [(q1_pipeline_map_ano paises).nodup_iff]
    exact ((q1_unwound paises).map fun d => d.2.ano).nodup_dedup
  · have hs := sortDescBy_sorted (fun r : Q1Row => -r.ano)
      ((groupBy (fun d => d.2.ano) (q1_unwound paises)).map fun g =>
        ({ ano := g.1
           media_global := round2 ((g.2.map fun d => d.2.valor).sum / (g.2.length : ℚ))
           acesso_brasil := (g.2.filterMap fun d =>
             if d.1.nome = "Brazil" then some d.2.valor else none).head? } : Q1Row))
    exact hs.imp fun h => by omega
  · intro y
    have hmem : (∃ r ∈ q1_pipeline paises, r.ano = y) ↔
        y ∈ (q1_pipeline paises).map Q1Row.ano := by
      simp [List.mem_map, eq_comm]
    rw [hmem, (q1_pipeline_map_ano paises).mem_iff, List.mem_dedup]
    unfold q1_unwound
    simp only [List.map_flatMap, List.mem_flatMap, List.map_map, List.mem_map]
    constructor
    · rintro ⟨p, hp, e, he, hey⟩
      exact ⟨p, hp, e, he, hey⟩
    · rintro ⟨p, hp, e, he, hey⟩
      exact ⟨p, hp, e, he, hey⟩

/-! Characterization of the q3 groups. -/

theorem q3_redacted_filter (paises : List Pais) (y : Int)
    (h : ∀ p ∈ paises, ((p.idh.getD []).map Entrada.ano).Nodup ∧
      ((p.geracao_energia_renovavel_per_capita.getD []).map Entrada.ano).Nodup) :
    (q3_redacted paises).filter (fun d => d.2.1.ano = y) =
      paises.flatMap fun p =>
        match (p.idh.getD []).find? (fun e => e.ano = y),
            (p.geracao_energia_renovavel_per_capita.getD []).find? (fun e => e.ano = y) with
        | some e1, some e2 => [(p, e1, e2)]
        | _, _ => [] := by
  unfold q3_redacted q3_unwound
  rw [List.filter_flatMap, List.filter_flatMap]
  refine flatMap_congr_left _ fun p hp => ?_
  have hfm : (((p.idh.getD []).flatMap fun e1 =>
      (p.geracao_energia_renovavel_per_capita.getD []).map fun e2 => (p, e1, e2)).filter
      fun d => d.2.1.ano = d.2.2.ano).filter (fun d => d.2.1.ano = y) =
    match (p.idh.getD []).find? (fun e => e.ano = y),
        (p.geracao_energia_renovavel_per_capita.getD []).find? (fun e => e.ano = y) with
    | some e1, some e2 => [(p, e1, e2)]
    | _, _ => [] :=
    product_filter_eq_match p _ _ y (h p hp).1 (h p hp).2
  exact hfm

theorem q3_filter_map_pair (paises : List Pais) (y : Int)
    (h : ∀ p ∈ paises, ((p.idh.getD []).map Entrada.ano).Nodup ∧
      ((p.geracao_energia_renovavel_per_capita.getD []).map Entrada.ano).Nodup) :
    ((q3_redacted paises).filter fun d => d.2.1.ano = y).map
        (fun d => (d.2.1.valor, d.2.2.valor)) = pairsAt paises y := by
  rw [q3_redacted_filter paises y h, List.map_flatMap]
  unfold pairsAt
  rw [filterMap_eq_flatMap_toList]
  refine flatMap_congr_left _ fun p _ => ?_
  cases hf1 : (p.idh.getD []).find? fun e => e.ano = y with
  | none => rfl
  | some e1 =>
    cases hf2 : (p.geracao_energia_renovavel_per_capita.getD []).find?
        fun e => e.ano = y with
    | none => rfl
    | some e2 => rfl

theorem q3_row_eq_pearson (pairs : List (ℚ × ℚ)) (g : Q3Group)
    (h1 : g.idh_valores = pairs.map Prod.fst)
    (h2 : g.geracao_valores = pairs.map Prod.snd)
    (hm1 : g.mean_idh = meanFst pairs)
    (hm2 : g.mean_geracao = meanSnd pairs) :
    (q3_row g).correlacao_idh_geracao = pearsonSpec pairs := by
  have hcov : covarianceOf g = covSum pairs := by
    unfold covarianceOf covSum
    rw [h1, h2, List.zip_map', foldl_add_map, zero_add, List.map_map, hm1, hm2]
    rfl
  have hsq1 : sqDevIdh g = sqSumFst pairs := by
    unfold sqDevIdh sqSumFst
    rw [h1, foldl_add_map, zero_add, List.map_map, hm1]
    rfl
  have hsq2 : sqDevGeracao g = sqSumSnd pairs := by
    unfold sqDevGeracao sqSumSnd
    rw [h2, foldl_add_map, zero_add, List.map_map, hm2]
    rfl
  show (if stdDevIdh g = 0 ∨ stdDevGeracao g = 0 then (0:ℝ)
      else (covarianceOf g : ℝ) / (stdDevIdh g * stdDevGeracao g)) = pearsonSpec pairs
  unfold stdDevIdh stdDevGeracao pearsonSpec
  rw [hcov, hsq1, hsq2]

theorem q3_correlacao_spec (paises : List Pais)
    (h : ∀ p ∈ paises, ((p.idh.getD []).map Entrada.ano).Nodup ∧
      ((p.geracao_energia_renovavel_per_capita.getD []).map Entrada.ano).Nodup) :
    ∀ r ∈ q3_pipeline paises,
      r.correlacao_idh_geracao = pearsonSpec (pairsAt paises r.ano) := by
  intro r hr
  have hr2 := (sortDescBy_perm (fun r : Q3Row => -r.ano) _).mem_iff.1 hr
  obtain ⟨g, hg, rfl⟩ := List.mem_map.1 hr2
  obtain ⟨gr, hgr, rfl⟩ := List.mem_map.1 hg
  obtain ⟨hk, hdocs⟩ := mem_groupBy hgr
  have hpair : (gr.2.map fun d => (d.2.1.valor, d.2.2.valor)) = pairsAt paises gr.1 := by
    rw [hdocs]
    exact q3_filter_map_pair paises gr.1 h
  have h1 : (gr.2.map fun d => d.2.1.valor) = (pairsAt paises gr.1).map Prod.fst := by
    rw [← hpair, List.map_map]
    rfl
  have h2 : (gr.2.map fun d => d.2.2.valor) = (pairsAt paises gr.1).map Prod.snd := by
    rw [← hpair, List.map_map]
    rfl
  have hlen : gr.2.length = (pairsAt paises gr.1).length := by
    rw [← hpair, List.length_map]
  exact q3_row_eq_pearson (pairsAt paises gr.1) _ h1 h2
    (by show (gr.2.map fun d => d.2.1.valor).sum / (gr.2.length : ℚ) = meanFst _
        rw [h1, hlen]; rfl)
    (by show (gr.2.map fun d => d.2.2.valor).sum / (gr.2.length : ℚ) = meanSnd _
        rw [h2, hlen]; rfl)

/-! Algebra of the spec-side correlation. -/

theorem sqSumFst_map_eq (ps : List (ℚ × ℚ)) :
    sqSumFst ps = ((ps.map Prod.fst).map fun x => (x - meanFst ps) ^ 2).sum := by
  unfold sqSumFst
  rw [List.map_map]
  rfl

theorem sqSumFst_pos (ps : List (ℚ × ℚ))
    (hne : ∃ t ∈ ps, ∃ u ∈ ps, t.1 ≠ u.1) : 0 < sqSumFst ps := by
  have h0 : 0 ≤ sqSumFst ps := by
    rw [sqSumFst_map_eq]
    exact sum_sq_nonneg _ _
  rcases lt_or_eq_of_le h0 with hpos | heq
  · exact hpos
  · exfalso
    rcases hne with ⟨t, ht, u, hu, htu⟩
    have hall := (sum_sq_eq_zero_iff (ps.map Prod.fst) (meanFst ps)).1
      (by rw [← sqSumFst_map_eq]; exact heq.symm)
    exact htu ((hall t.1 (List.mem_map_of_mem _ ht)).trans
      (hall u.1 (List.mem_map_of_mem _ hu)).symm)

theorem sum_map_const {α : Type} (l : List α) (a : ℚ) :
    (l.map fun _ => a).sum = l.length * a := by
  induction l with
  | nil => simp
  | cons x l ih =>
    simp [ih]
    ring

theorem pearsonSpec_linear (ps : List (ℚ × ℚ)) (a b : ℚ) (hb : 0 < b)
    (hlin : ∀ t ∈ ps, t.2 = a + b * t.1)
    (hne : ∃ t ∈ ps, ∃ u ∈ ps, t.1 ≠ u.1) :
    pearsonSpec ps = 1 := by
  have hnil : ps ≠ [] := by
    rcases hne with ⟨t, ht, _⟩
    exact List.ne_nil_of_mem ht
  have hn : (ps.length : ℚ) ≠ 0 := by
    have := List.length_pos.2 hnil
    exact_mod_cast Nat.pos_iff_ne_zero.1 this
  have hsum2 : (ps.map Prod.snd).sum = ps.length * a + b * (ps.map Prod.fst).sum := by
    rw [List.map_congr_left (g := fun t : ℚ × ℚ => a + b * t.1) hlin, List.sum_map_add]
    congr 1
    · exact sum_map_const ps a
    · rw [← List.sum_map_mul_left]
  have hmg : meanSnd ps = a + b * meanFst ps := by
    unfold meanSnd meanFst
    rw [hsum2]
    field_simp
    ring
  have hsub : ∀ t ∈ ps, t.2 - meanSnd ps = b * (t.1 - meanFst ps) := by
    intro t ht
    rw [hlin t ht, hmg]
    ring
  have hcov : covSum ps = b * sqSumFst ps := by
    unfold covSum sqSumFst
    rw [List.map_congr_left (g := fun t : ℚ × ℚ => b * (t.1 - meanFst ps) ^ 2)
      fun t ht => by rw [hsub t ht]; ring]
    rw [List.sum_map_mul_left]
  have hsg : sqSumSnd ps = b ^ 2 * sqSumFst ps := by
    unfold sqSumSnd sqSumFst
    rw [List.map_congr_left (g := fun t : ℚ × ℚ => b ^ 2 * (t.1 - meanFst ps) ^ 2)
      fun t ht => by rw [hsub t ht]; ring]
    rw [List.sum_map_mul_left]
  have hS := sqSumFst_pos ps hne
  have hSR : (0:ℝ) < ((sqSumFst ps : ℚ) : ℝ) := by exact_mod_cast hS
  have hbR : (0:ℝ) < ((b : ℚ) : ℝ) := by exact_mod_cast hb
  have hsqS : (0:ℝ) < Real.sqrt (sqSumFst ps) := Real.sqrt_pos.2 hSR
  have hsg2 : Real.sqrt (sqSumSnd ps) = (b : ℝ) * Real.sqrt (sqSumFst ps) := by
    rw [hsg]
    push_cast
    rw [Real.sqrt_mul (by positivity), Real.sqrt_sq hbR.le]
  unfold pearsonSpec
  rw [if_neg (by
    rintro (h1 | h2)
    · exact hsqS.ne' h1
    · rw [hsg2] at h2
      exact (mul_pos hbR hsqS).ne' h2)]
  rw [hcov, hsg2]
  push_cast
  rw [show Real.sqrt ((sqSumFst ps : ℚ) : ℝ) *
      ((b:ℝ) * Real.sqrt ((sqSumFst ps : ℚ) : ℝ)) =
    (b:ℝ) * (Real.sqrt ((sqSumFst ps : ℚ) : ℝ) * Real.sqrt ((sqSumFst ps : ℚ) : ℝ)) by
      ring, Real.mul_self_sqrt hSR.le]
  exact div_self (mul_pos hbR hSR).ne'

theorem pearsonSpec_single (t : ℚ × ℚ) : pearsonSpec [t] = 0 := by
  have h1 : meanFst [t] = t.1 := by unfold meanFst; simp
  have h : sqSumFst [t] = 0 := by
    unfold sqSumFst
    simp [h1]
  unfold pearsonSpec
  rw [if_pos (Or.inl (by rw [h]; simp))]

/-- Claim C1: for each year emitted by report 3, with the paired samples
ranging over exactly the countries having both an HDI entry and a
generation-per-capita entry for that year, the emitted correlation equals
covSum / (sqrt sqSumFst * sqrt sqSumSnd) — no division by N before the
square roots — and equals 0 whenever either square-root factor is 0 (all
packaged in `pearsonSpec`).  Hypothesis: the data-model invariant of at
most one series entry per year. -/
theorem claim_C1 (paises : List Pais)
    (hN : ∀ p ∈ paises, ((p.idh.getD []).map Entrada.ano).Nodup ∧
      ((p.geracao_energia_renovavel_per_capita.getD []).map Entrada.ano).Nodup) :
    ∀ r ∈ q3_pipeline paises,
      r.correlacao_idh_geracao = pearsonSpec (pairsAt paises r.ano) :=
  q3_correlacao_spec paises hN

/-- Claim C8: for a year of report 3 whose paired samples all lie on one
line of positive slope, with at least two pairs and not all HDI values
equal, the emitted correlation is exactly 1; for a year with exactly one
pair, it is 0.  Hypothesis: the data-model invariant of at most one series
entry per year. -/
theorem claim_C8 (paises : List Pais) (y : Int) (a b : ℚ)
    (hN : ∀ p ∈ paises, ((p.idh.getD []).map Entrada.ano).Nodup ∧
      ((p.geracao_energia_renovavel_per_capita.getD []).map Entrada.ano).Nodup) :
    (0 < b → (∀ t ∈ pairsAt paises y, t.2 = a + b * t.1) →
      2 ≤ (pairsAt paises y).length →
      (∃ t ∈ pairsAt paises y, ∃ u ∈ pairsAt paises y, t.1 ≠ u.1) →
      ∀ r ∈ q3_pipeline paises, r.ano = y → r.correlacao_idh_geracao = 1) ∧
    ((pairsAt paises y).length = 1 →
      ∀ r ∈ q3_pipeline paises, r.ano = y → r.correlacao_idh_geracao = 0) := by
  constructor
  · intro hb hlin _ hne r hr hry
    rw [q3_correlacao_spec paises hN r hr, hry]
    exact pearsonSpec_linear _ a b hb hlin hne
  · intro hlen r hr hry
    rw [q3_correlacao_spec paises hN r hr, hry]
    obtain ⟨t, ht⟩ := List.length_eq_one.1 hlen
    rw [ht]
    exact pearsonSpec_single t

/-! Characterization of the q7 merged facet groups. -/

theorem sum_map_zero {α : Type} (l : List α) : (l.map fun _ => (0:Nat)).sum = 0 := by
  induction l with
  | nil => rfl
  | cons x l ih => simp [ih]

theorem q7_filter_comm (usinas : List Usina) (s : String) :
    (usinas.filter temUnidadeRenovavel).filter (fun u => u.estado.nome = s) =
      usinas.filter fun u => u.estado.nome = s ∧ temUnidadeRenovavel u := by
  rw [List.filter_filter]
  apply List.filter_congr
  intro u _
  by_cases h1 : temUnidadeRenovavel u <;> by_cases h2 : u.estado.nome = s <;>
    simp [h1, h2]

/-- Claim C5: for every state row of report 7, `total_usinas` counts the
plants of that state, `usinas_renovaveis` counts those among them with at
least one renewable-fuel unit, the percentage follows the guarded rounded
formula, and rows are sorted descending by percentage. -/
theorem claim_C5 (usinas : List Usina) :
    (∀ r ∈ q7_pipeline usinas,
      r.total_usinas = (usinas.filter fun u => u.estado.nome = r.estado).length ∧
      r.usinas_renovaveis =
        (usinas.filter fun u => u.estado.nome = r.estado ∧ temUnidadeRenovavel u).length ∧
      r.perc_renovaveis = (if r.total_usinas = 0 then 0
        else round2 ((r.usinas_renovaveis : ℚ) / (r.total_usinas : ℚ) * 100))) ∧
    (q7_pipeline usinas).Pairwise (fun r s => s.perc_renovaveis ≤ r.perc_renovaveis) := by
  constructor
  · intro r hr
    have hr2 := (sortDescBy_perm (fun r : Q7Row => r.perc_renovaveis) _).mem_iff.1 hr
    obtain ⟨g, hg, rfl⟩ := List.mem_map.1 hr2
    obtain ⟨hk, hdocs⟩ := mem_groupBy hg
    have hAf : ((groupBy (fun u => u.estado.nome) usinas).map
        (fun t => (t.1, some t.2.length, (none : Option Nat)))).filter
          (fun x => x.1 = g.1) =
        if g.1 ∈ (usinas.map fun u => u.estado.nome).dedup then
          [(g.1, some (usinas.filter fun u => u.estado.nome = g.1).length,
            (none : Option Nat))]
        else [] := by
      rw [List.filter_map,
        show ((fun x : String × Option Nat × Option Nat => decide (x.1 = g.1)) ∘
          fun t : String × List Usina => (t.1, some t.2.length, (none : Option Nat))) =
          (fun t : String × List Usina => decide (t.1 = g.1)) from rfl,
        groupBy_filter_key]
      split <;> simp
    have hBf : ((groupBy (fun u => u.estado.nome) (usinas.filter temUnidadeRenovavel)).map
        (fun t => (t.1, (none : Option Nat), some t.2.length))).filter
          (fun x => x.1 = g.1) =
        if g.1 ∈ ((usinas.filter temUnidadeRenovavel).map fun u => u.estado.nome).dedup then
          [(g.1, (none : Option Nat),
            some ((usinas.filter temUnidadeRenovavel).filter
              fun u => u.estado.nome = g.1).length)]
        else [] := by
      rw [List.filter_map,
        show ((fun x : String × Option Nat × Option Nat => decide (x.1 = g.1)) ∘
          fun t : String × List Usina => (t.1, (none : Option Nat), some t.2.length)) =
          (fun t : String × List Usina => decide (t.1 = g.1)) from rfl,
        groupBy_filter_key]
      split <;> simp
    have hsplit : g.2 =
        (((groupBy (fun u => u.estado.nome) usinas).map
          (fun t => (t.1, some t.2.length, (none : Option Nat)))).filter
            (fun x => x.1 = g.1)) ++
        (((groupBy (fun u => u.estado.nome) (usinas.filter temUnidadeRenovavel)).map
          (fun t => (t.1, (none : Option Nat), some t.2.length))).filter
            (fun x => x.1 = g.1)) := by
      rw [hdocs]
      unfold q7_all_data
      rw [List.filter_append]
    have hsA : g.1 ∈ (usinas.map fun u => u.estado.nome).dedup := by
      have hk2 : g.1 ∈ (q7_all_data usinas).map Prod.fst := List.mem_dedup.1 hk
      unfold q7_all_data at hk2
      rw [List.map_append, List.map_map, List.map_map, List.mem_append] at hk2
      rcases hk2 with h | h
      · rw [show ((Prod.fst ∘ fun t : String × List Usina =>
            (t.1, some t.2.length, (none : Option Nat)))) = Prod.fst from rfl,
          groupBy_map_fst] at h
        exact h
      · rw [show ((Prod.fst ∘ fun t : String × List Usina =>
            (t.1, (none : Option Nat), some t.2.length))) = Prod.fst from rfl,
          groupBy_map_fst] at h
        rw [List.mem_dedup] at h ⊢
        obtain ⟨u, hu, hus⟩ := List.mem_map.1 h
        exact List.mem_map.2 ⟨u, List.mem_of_mem_filter hu, hus⟩
    have htotal : (g.2.map fun d => d.2.1.getD 0).sum =
        (usinas.filter fun u => u.estado.nome = g.1).length := by
      rw [hsplit, List.map_append, List.sum_append, hAf, hBf, if_pos hsA]
      split <;> simp
    have hrenov : (g.2.map fun d => d.2.2.getD 0).sum =
        (usinas.filter fun u => u.estado.nome = g.1 ∧ temUnidadeRenovavel u).length := by
      rw [hsplit, List.map_append, List.sum_append, hAf, hBf, if_pos hsA]
      split
      · rename_i hmem
        rw [← q7_filter_comm]
        simp
      · rename_i hmem
        have hempty : (usinas.filter
            fun u => u.estado.nome = g.1 ∧ temUnidadeRenovavel u) = [] := by
          rw [← q7_filter_comm]
          rcases hq : (usinas.filter temUnidadeRenovavel).filter
              (fun u => u.estado.nome = g.1) with _ | ⟨u, t⟩
          · exact hq
          · exfalso
            apply hmem
            have hu : u ∈ (usinas.filter temUnidadeRenovavel).filter
                (fun u => u.estado.nome = g.1) := by rw [hq]; simp
            have hu1 := List.mem_of_mem_filter hu
            have hu2 : u.estado.nome = g.1 := by
              simpa using (List.mem_filter.1 hu).2
            exact List.mem_dedup.2 (List.mem_map.2 ⟨u, hu1, hu2⟩)
        rw [hempty]
        simp
    exact ⟨htotal, ⟨hrenov, by rw [htotal]⟩⟩
  · exact sortDescBy_sorted (fun r : Q7Row => r.perc_renovaveis) _

/-! Characterization of the q8 facet branches. -/

theorem sum_map_flatMap {α β : Type} (l : List α) (f : α → List β) (h : β → ℚ) :
    ((l.flatMap f).map h).sum = (l.map fun x => ((f x).map h).sum).sum := by
  induction l with
  | nil => rfl
  | cons a l ih => simp [List.flatMap_cons, ih]

theorem find?_eq_head_filter {α : Type} (p : α → Bool) (l : List α) :
    l.find? p = (l.filter p).head? := by
  induction l with
  | nil => rfl
  | cons a l ih =>
    by_cases h : p a = true
    · rw [List.find?_cons_of_pos _ h, List.filter_cons_of_pos h]
      rfl
    · rw [List.find?_cons_of_neg _ (by simpa using h),
        List.filter_cons_of_neg (by simpa using h), ih]

theorem q8_renewUnits_eq (usinas : List Usina) :
    q8_renewUnits usinas =
      (usinas.filter temUnidadeRenovavel).flatMap fun u =>
        (unidadesRenovaveis u).map fun g => (u, g) := by
  unfold q8_renewUnits unidadesRenovaveis
  rw [List.filter_flatMap]
  refine flatMap_congr_left _ fun u _ => ?_
  rw [List.filter_map,
    show ((fun d : Usina × Unidade => decide (isRenovavel d.2)) ∘ fun g => (u, g)) =
      (fun g => decide (isRenovavel g)) from rfl]

theorem q8_total_sum_units (usinas : List Usina) :
    capacidadeRenovavelTotal usinas =
      ((q8_renewUnits usinas).map fun d => d.2.potencia_efetiva_mw).sum := by
  rw [q8_renewUnits_eq, sum_map_flatMap]
  unfold capacidadeRenovavelTotal
  refine congrArg List.sum (List.map_congr_left fun u _ => ?_)
  rw [List.map_map]
  rfl

theorem q8_total_nacional_eq (usinas : List Usina) :
    ∀ t ∈ q8_total_nacional usinas, t = capacidadeRenovavelTotal usinas := by
  intro t ht
  unfold q8_total_nacional at ht
  obtain ⟨g, hg, rfl⟩ := List.mem_map.1 ht
  obtain ⟨hk, hdocs⟩ := mem_groupBy hg
  have hall : g.2 = q8_renewUnits usinas := by
    rw [hdocs]
    exact List.filter_eq_self.2 fun x _ => by simp
  rw [hall, ← q8_total_sum_units]

theorem q8_capacidade_eq (usinas : List Usina) :
    ∀ ce ∈ q8_capacidade_por_estado usinas,
      ce.2 = capacidadeRenovavelEstado usinas ce.1 := by
  intro ce hce
  unfold q8_capacidade_por_estado at hce
  obtain ⟨g, hg, rfl⟩ := List.mem_map.1 hce
  obtain ⟨hk, hdocs⟩ := mem_groupBy hg
  show (g.2.map fun d => d.2.potencia_efetiva_mw).sum =
    capacidadeRenovavelEstado usinas g.1
  rw [hdocs, q8_renewUnits_eq, List.filter_flatMap]
  have hin : ∀ u ∈ usinas.filter temUnidadeRenovavel,
      (((unidadesRenovaveis u).map fun gg => (u, gg)).filter
        fun d => d.1.estado.nome = g.1) =
      if u.estado.nome = g.1 then (unidadesRenovaveis u).map fun gg => (u, gg)
      else [] := by
    intro u _
    rw [List.filter_map,
      show ((fun d : Usina × Unidade => decide (d.1.estado.nome = g.1)) ∘
        fun gg => (u, gg)) = (fun _ => decide (u.estado.nome = g.1)) from rfl]
    by_cases h : u.estado.nome = g.1 <;> simp [h]
  rw [flatMap_congr_left _ hin, flatMap_if_filter, sum_map_flatMap, q7_filter_comm]
  unfold capacidadeRenovavelEstado
  refine congrArg List.sum (List.map_congr_left fun u _ => ?_)
  rw [List.map_map]
  rfl

theorem q8_capacidade_sum (usinas : List Usina) :
    ((q8_capacidade_por_estado usinas).map Prod.snd).sum =
      capacidadeRenovavelTotal usinas := by
  unfold q8_capacidade_por_estado
  rw [List.map_map, q8_total_sum_units]
  exact groupBy_sum_map (fun d : Usina × Unidade => d.1.estado.nome)
    (q8_renewUnits usinas) (fun d => d.2.potencia_efetiva_mw)

theorem q8_row_spec (usinas : List Usina) (paises : List Pais)
    (hbr : (paises.filter fun p => p.nome = "Brazil").length ≤ 1) :
    ∀ r ∈ q8_pipeline usinas paises,
      r.capacidade_renovavel_mw = round2 (capacidadeRenovavelEstado usinas r.estado) ∧
      r.percentual_do_total_nacional =
        (if capacidadeRenovavelTotal usinas = 0 then 0
         else round2 (capacidadeRenovavelEstado usinas r.estado /
           capacidadeRenovavelTotal usinas * 100)) ∧
      r.investimento_nacional_total_usd = investimentoBrasilTotal paises := by
  intro r hr
  have hr2 := (sortDescBy_perm (fun r : Q8Row => r.capacidade_renovavel_mw) _).mem_iff.1 hr
  obtain ⟨t, ht, hr3⟩ := List.mem_flatMap.1 hr2
  obtain ⟨ce, hce, hr4⟩ := List.mem_flatMap.1 hr3
  obtain ⟨br, hbr2, rfl⟩ := List.mem_map.1 hr4
  have htv := q8_total_nacional_eq usinas t ht
  have hcev := q8_capacidade_eq usinas ce hce
  refine ⟨?_, ?_, ?_⟩
  · show round2 ce.2 = _
    rw [hcev]
  · show (if t = 0 then (0:ℚ) else round2 (ce.2 / t * 100)) = _
    rw [hcev, htv]
  · show ((br.investimento_energia_limpa.getD []).map fun e => e.valor).sum = _
    have hone : paises.filter (fun p => p.nome = "Brazil") = [br] := by
      rcases hq : paises.filter (fun p => p.nome = "Brazil") with _ | ⟨x, xs⟩
      · rw [hq] at hbr2
        exact absurd hbr2 (List.not_mem_nil br)
      · rw [hq] at hbr hbr2
        cases xs with
        | nil =>
          rcases List.mem_singleton.1 hbr2 with rfl
          exact hq
        | cons y ys => simp at hbr
    unfold investimentoBrasilTotal
    rw [find?_eq_head_filter, hone]
    rfl

theorem capacidadeRenovavelEstado_nonneg (usinas : List Usina) (s : String)
    (hpos : ∀ u ∈ usinas, ∀ g ∈ u.unidades_geradoras, 0 ≤ g.potencia_efetiva_mw) :
    0 ≤ capacidadeRenovavelEstado usinas s := by
  unfold capacidadeRenovavelEstado
  apply List.sum_nonneg
  intro x hx
  obtain ⟨u, hu, rfl⟩ := List.mem_map.1 hx
  apply List.sum_nonneg
  intro y hy
  obtain ⟨g, hg, rfl⟩ := List.mem_map.1 hy
  exact hpos u (List.mem_of_mem_filter hu) g (List.mem_of_mem_filter hg)

theorem capacidadeRenovavelEstado_le_total (usinas : List Usina)
    (hpos : ∀ u ∈ usinas, ∀ g ∈ u.unidades_geradoras, 0 ≤ g.potencia_efetiva_mw)
    {ce : String × ℚ} (hce : ce ∈ q8_capacidade_por_estado usinas) :
    capacidadeRenovavelEstado usinas ce.1 ≤ capacidadeRenovavelTotal usinas := by
  rw [← q8_capacidade_eq usinas ce hce, ← q8_capacidade_sum usinas]
  refine List.single_le_sum ?_ _ (List.mem_map_of_mem Prod.snd hce)
  intro x hx
  obtain ⟨ce2, hce2, rfl⟩ := List.mem_map.1 hx
  rw [q8_capacidade_eq usinas ce2 hce2]
  exact capacidadeRenovavelEstado_nonneg usinas ce2.1 hpos

/-- Claim C4, amended: for every state row of report 8, the emitted
capacity figure equals the state's renewable unit sum ROUNDED to 2
decimals (the amendment — the raw sum only when it has at most 2 decimal
places); the percentage applies the guarded rounded formula to the raw
(unrounded) state sum over the national total; the investment figure is
the all-years Brazilian investment sum; rows are sorted descending by the
emitted capacity.  Hypothesis: at most one country named Brazil. -/
theorem claim_C4 (usinas : List Usina) (paises : List Pais)
    (hbr : (paises.filter fun p => p.nome = "Brazil").length ≤ 1) :
    (∀ r ∈ q8_pipeline usinas paises,
      r.capacidade_renovavel_mw = round2 (capacidadeRenovavelEstado usinas r.estado) ∧
      r.percentual_do_total_nacional =
        (if capacidadeRenovavelTotal usinas = 0 then 0
         else round2 (capacidadeRenovavelEstado usinas r.estado /
           capacidadeRenovavelTotal usinas * 100)) ∧
      r.investimento_nacional_total_usd = investimentoBrasilTotal paises) ∧
    (q8_pipeline usinas paises).Pairwise
      (fun r s => s.capacidade_renovavel_mw ≤ r.capacidade_renovavel_mw) := by
  constructor
  · exact q8_row_spec usinas paises hbr
  · exact sortDescBy_sorted (fun r : Q8Row => r.capacidade_renovavel_mw) _

theorem q8_empty_of_no_brazil (usinas : List Usina) (paises : List Pais)
    (h : ∀ p ∈ paises, p.nome ≠ "Brazil") :
    q8_pipeline usinas paises = [] := by
  have hf : paises.filter (fun p => p.nome = "Brazil") = [] :=
    List.filter_eq_nil_iff.2 fun p hp => by simpa using h p hp
  unfold q8_pipeline
  rw [hf]
  rw [flatMap_nil_of fun t _ => flatMap_nil_of (l := q8_capacidade_por_estado usinas)
    fun ce _ => List.map_nil]
  rfl

/-- Claim C10: when no country document is named `Brazil`, report 8
returns the empty sequence for every plant collection (the `$lookup` +
`$unwind` drops every row). -/
theorem claim_C10 (usinas : List Usina) (paises : List Pais)
    (h : ∀ p ∈ paises, p.nome ≠ "Brazil") :
    q8_pipeline usinas paises = [] :=
  q8_empty_of_no_brazil usinas paises h

theorem map_unit_dedup {α : Type} (l : List α) (h : l ≠ []) :
    ((l.map fun _ => ()).dedup) = [()] := by
  induction l with
  | nil => exact absurd rfl h
  | cons a t ih =>
    cases t with
    | nil => rfl
    | cons b t2 =>
      rw [List.map_cons, List.dedup_cons_of_mem (by simp)]
      exact ih (by simp)

theorem q8_total_nacional_of_ne (usinas : List Usina)
    (h : q8_renewUnits usinas ≠ []) :
    q8_total_nacional usinas = [capacidadeRenovavelTotal usinas] := by
  unfold q8_total_nacional groupBy
  rw [map_unit_dedup _ h, List.map_cons, List.map_nil, List.map_cons, List.map_nil]
  congr 1
  rw [List.filter_eq_self.2 fun x _ => by simp, ← q8_total_sum_units]

/-- Claim C9, amended: the q8 national total equals the sum of the
per-state capacities (unconditionally); when every unit capacity is
nonnegative (the amendment — a negative capacity in the data breaks the
bounds, and only the bounds), every row's unrounded percentage lies in
[0, 100]; and when exactly one country is named Brazil and the national
total is nonzero, the unrounded percentages over all emitted rows sum to
100 (again with no nonnegativity needed). -/
theorem claim_C9 (usinas : List Usina) (paises : List Pais) :
    (∀ t ∈ q8_total_nacional usinas,
      t = ((q8_capacidade_por_estado usinas).map Prod.snd).sum) ∧
    ((∀ u ∈ usinas, ∀ g ∈ u.unidades_geradoras, 0 ≤ g.potencia_efetiva_mw) →
      ∀ r ∈ q8_pipeline usinas paises,
      0 ≤ capacidadeRenovavelEstado usinas r.estado /
          capacidadeRenovavelTotal usinas * 100 ∧
      capacidadeRenovavelEstado usinas r.estado /
          capacidadeRenovavelTotal usinas * 100 ≤ 100) ∧
    ((paises.filter fun p => p.nome = "Brazil").length = 1 →
      capacidadeRenovavelTotal usinas ≠ 0 →
      ((q8_pipeline usinas paises).map fun r =>
        capacidadeRenovavelEstado usinas r.estado /
          capacidadeRenovavelTotal usinas * 100).sum = 100) := by
  refine ⟨?_, ?_, ?_⟩
  · intro t ht
    rw [q8_total_nacional_eq usinas t ht, q8_capacidade_sum]
  · intro hpos r hr
    have hr2 := (sortDescBy_perm (fun r : Q8Row => r.capacidade_renovavel_mw) _).mem_iff.1 hr
    obtain ⟨t, ht, hr3⟩ := List.mem_flatMap.1 hr2
    obtain ⟨ce, hce, hr4⟩ := List.mem_flatMap.1 hr3
    obtain ⟨br, hbr2, rfl⟩ := List.mem_map.1 hr4
    have hc0 : 0 ≤ capacidadeRenovavelEstado usinas ce.1 :=
      capacidadeRenovavelEstado_nonneg usinas ce.1 hpos
    have hT0 : 0 ≤ capacidadeRenovavelTotal usinas := by
      rw [← q8_capacidade_sum]
      apply List.sum_nonneg
      intro x hx
      obtain ⟨ce2, hce2, rfl⟩ := List.mem_map.1 hx
      rw [q8_capacidade_eq usinas ce2 hce2]
      exact capacidadeRenovavelEstado_nonneg usinas ce2.1 hpos
    have hle := capacidadeRenovavelEstado_le_total usinas hpos hce
    constructor
    · positivity
    · show capacidadeRenovavelEstado usinas ce.1 / capacidadeRenovavelTotal usinas * 100 ≤ 100
      rcases eq_or_lt_of_le hT0 with hT | hT
      · have hc00 : capacidadeRenovavelEstado usinas ce.1 = 0 :=
          le_antisymm (hT ▸ hle) hc0
        rw [hc00]
        norm_num
      · have h1 : capacidadeRenovavelEstado usinas ce.1 /
            capacidadeRenovavelTotal usinas ≤ 1 := (div_le_one hT).2 hle
        nlinarith
  · intro hbr1 hT
    obtain ⟨br, hbrE⟩ := List.length_eq_one.1 hbr1
    have hne : q8_renewUnits usinas ≠ [] := fun h => hT (by
      rw [q8_total_sum_units, h]
      rfl)
    have hrows : q8_pipeline usinas paises =
        sortDescBy (fun r : Q8Row => r.capacidade_renovavel_mw)
          ((q8_capacidade_por_estado usinas).map fun ce =>
            ({ estado := ce.1
               capacidade_renovavel_mw := round2 ce.2
               percentual_do_total_nacional :=
                 if capacidadeRenovavelTotal usinas = 0 then 0
                 else round2 (ce.2 / capacidadeRenovavelTotal usinas * 100)
               investimento_nacional_total_usd :=
                 ((br.investimento_energia_limpa.getD []).map fun e => e.valor).sum } :
              Q8Row)) := by
      unfold q8_pipeline
      rw [q8_total_nacional_of_ne usinas hne, hbrE, List.flatMap_cons, List.flatMap_nil,
        List.append_nil]
      congr 1
      induction q8_capacidade_por_estado usinas with
      | nil => rfl
      | cons ce rest ih => rw [List.flatMap_cons, ih, List.map_cons]; rfl
    rw [hrows, ((sortDescBy_perm (fun r : Q8Row => r.capacidade_renovavel_mw)
      _).map _).sum_eq, List.map_map]
    rw [List.map_congr_left (g := fun ce : String × ℚ =>
      ce.2 * (100 / capacidadeRenovavelTotal usinas)) fun ce hce => by
        show capacidadeRenovavelEstado usinas ce.1 /
          capacidadeRenovavelTotal usinas * 100 = _
        rw [← q8_capacidade_eq usinas ce hce]
        ring]
    rw [List.sum_map_mul_right, q8_capacidade_sum]
    field_simp

/-! Characterization of the q5 distinct-plant counts. -/

theorem dedup_const_append {α : Type} [DecidableEq α] (a : α) :
    ∀ (bl : List α), (∀ x ∈ bl, x = a) → bl ≠ [] → ∀ (L : List α), a ∉ L →
      (bl ++ L).dedup = a :: L.dedup := by
  intro bl
  induction bl with
  | nil => intro _ h; exact absurd rfl h
  | cons b t ih =>
    intro hall _ L haL
    have hb : b = a := hall b (by simp)
    subst hb
    cases t with
    | nil => simpa using List.dedup_cons_of_not_mem haL
    | cons c t2 =>
      have hrec := ih (fun x hx => hall x (by simp [hx])) (by simp) L haL
      have hc : c = b := hall c (by simp)
      rw [List.cons_append, List.dedup_cons_of_mem (by simp [hc]), hrec]

theorem q5_filtered_ids (usinas : List Usina) (f : String) :
    (((unidades_unwound usinas).filter fun d => d.2.combustivel = f).map
        fun d => d.1.id) =
      usinas.flatMap fun u =>
        ((u.unidades_geradoras.filter fun g => g.combustivel = f).map fun _ => u.id) := by
  unfold unidades_unwound
  rw [List.filter_flatMap, List.map_flatMap]
  refine flatMap_congr_left _ fun u _ => ?_
  rw [List.filter_map,
    show ((fun d : Usina × Unidade => decide (d.2.combustivel = f)) ∘ fun g => (u, g)) =
      (fun g : Unidade => decide (g.combustivel = f)) from rfl,
    List.map_map]
  rfl

theorem q5_dedup_count (f : String) :
    ∀ (usinas : List Usina), (usinas.map Usina.id).Nodup →
      ((usinas.flatMap fun u =>
        ((u.unidades_geradoras.filter fun g => g.combustivel = f).map
          fun _ => u.id)).dedup).length =
      (usinas.filter fun u => temCombustivel u f).length := by
  intro usinas
  induction usinas with
  | nil => intro _; rfl
  | cons u rest ih =>
    intro h
    rw [List.map_cons, List.nodup_cons] at h
    rw [List.flatMap_cons]
    by_cases hf : temCombustivel u f
    · have hk : (u.unidades_geradoras.filter fun g => g.combustivel = f) ≠ [] := by
        obtain ⟨g, hg, hgf⟩ := hf
        intro hnil
        have hmem : g ∈ u.unidades_geradoras.filter fun g => g.combustivel = f :=
          List.mem_filter.2 ⟨hg, by simpa using hgf⟩
        rw [hnil] at hmem
        exact absurd hmem (List.not_mem_nil g)
      have hblock : ((u.unidades_geradoras.filter fun g => g.combustivel = f).map
          fun _ => u.id) ≠ [] := by
        intro hnil
        exact hk (List.map_eq_nil_iff.1 hnil)
      have hnotin : u.id ∉ rest.flatMap fun u2 =>
          ((u2.unidades_geradoras.filter fun g => g.combustivel = f).map
            fun _ => u2.id) := by
        intro hmem
        obtain ⟨u2, hu2, hid2⟩ := List.mem_flatMap.1 hmem
        obtain ⟨g2, _, hidEq⟩ := List.mem_map.1 hid2
        exact h.1 (hidEq ▸ List.mem_map_of_mem Usina.id hu2)
      rw [dedup_const_append u.id _
          (fun x hx => by
            obtain ⟨g2, _, hg2⟩ := List.mem_map.1 hx
            exact hg2.symm) hblock _ hnotin,
        List.length_cons, List.filter_cons_of_pos (by simpa using hf),
        List.length_cons, ih h.2]
    · have hk : (u.unidades_geradoras.filter fun g => g.combustivel = f) = [] := by
        refine List.filter_eq_nil_iff.2 fun g hg hgf => hf ⟨g, hg, ?_⟩
        simpa using hgf
      rw [hk, List.map_nil, List.nil_append,
        List.filter_cons_of_neg (by simpa using hf), ih h.2]

/-- Claim C7: in report 5, each fuel type's count is the number of distinct
plants having at least one generating unit of that fuel (a plant with
several same-fuel units counts once), and rows are sorted descending by
count.  Hypothesis: the plant `_id`s are pairwise distinct, as MongoDB
guarantees. -/
theorem claim_C7 (usinas : List Usina) (hid : (usinas.map Usina.id).Nodup) :
    (∀ r ∈ q5_pipeline usinas,
      r.qtd_usinas = (usinas.filter fun u => temCombustivel u r.combustivel).length) ∧
    (q5_pipeline usinas).Pairwise (fun r s => s.qtd_usinas ≤ r.qtd_usinas) := by
  constructor
  · intro r hr
    have hr2 := (sortDescBy_perm (fun r : Q5Row => r.qtd_usinas) _).mem_iff.1 hr
    obtain ⟨g, hg, rfl⟩ := List.mem_map.1 hr2
    obtain ⟨hk, hdocs⟩ := mem_groupBy hg
    show ((g.2.map fun d => d.1.id).dedup).length =
      (usinas.filter fun u => temCombustivel u g.1).length
    rw [hdocs, q5_filtered_ids usinas g.1, q5_dedup_count g.1 usinas hid]
  · exact sortDescBy_sorted (fun r : Q5Row => r.qtd_usinas) _

/-- Claim C2: no embedded report can raise an arithmetic error — the
divisions of reports 3, 7 and 8 follow guarded formulas whose zero
denominator case is the default 0 (for report 3 the guard comes from the
standard deviations, which vanish exactly on zero variance), and every
report maps an empty input collection (and, for the q8 join, an empty
country collection) to the empty sequence. -/
theorem claim_C2 (paises : List Pais) (usinas : List Usina) (g : Q3Group) :
    (q1_pipeline [] = [] ∧ q2_pipeline [] = [] ∧ q3_pipeline [] = [] ∧
      q4_pipeline [] = [] ∧ q5_pipeline [] = [] ∧ q6_pipeline [] = [] ∧
      q7_pipeline [] = [] ∧ q8_pipeline [] paises = [] ∧ q8_pipeline usinas [] = []) ∧
    ((sqDevIdh g = 0 ∨ sqDevGeracao g = 0) →
      (q3_row g).correlacao_idh_geracao = 0) ∧
    (∀ r ∈ q7_pipeline usinas,
      r.perc_renovaveis = (if r.total_usinas = 0 then 0
        else round2 ((r.usinas_renovaveis : ℚ) / (r.total_usinas : ℚ) * 100))) ∧
    (∀ r ∈ q8_pipeline usinas paises, capacidadeRenovavelTotal usinas = 0 →
      r.percentual_do_total_nacional = 0) := by
  refine ⟨⟨rfl, rfl, rfl, rfl, rfl, rfl, rfl, ?_, ?_⟩, ?_, ?_, ?_⟩
  · unfold q8_pipeline q8_total_nacional q8_renewUnits
    rfl
  · exact q8_empty_of_no_brazil usinas [] fun p hp => absurd hp (List.not_mem_nil p)
  · intro hzero
    show (if stdDevIdh g = 0 ∨ stdDevGeracao g = 0 then (0:ℝ)
      else (covarianceOf g : ℝ) / (stdDevIdh g * stdDevGeracao g)) = 0
    rcases hzero with h | h
    · rw [if_pos (Or.inl (by rw [stdDevIdh, h]; simp))]
    · rw [if_pos (Or.inr (by rw [stdDevGeracao, h]; simp))]
  · intro r hr
    have hr2 := (sortDescBy_perm (fun r : Q7Row => r.perc_renovaveis) _).mem_iff.1 hr
    obtain ⟨gg, hgg, rfl⟩ := List.mem_map.1 hr2
    rfl
  · intro r hr hT
    have hr2 := (sortDescBy_perm (fun r : Q8Row => r.capacidade_renovavel_mw) _).mem_iff.1 hr
    obtain ⟨t, ht, hr3⟩ := List.mem_flatMap.1 hr2
    obtain ⟨ce, hce, hr4⟩ := List.mem_flatMap.1 hr3
    obtain ⟨br, hbr2, rfl⟩ := List.mem_map.1 hr4
    show (if t = 0 then (0:ℚ) else round2 (ce.2 / t * 100)) = 0
    rw [q8_total_nacional_eq usinas t ht, if_pos hT]

/-! Counterexamples and witnesses at the concrete fixtures. -/

/-- Counterexample to claim C4 as stated: with a single renewable unit of
1/1000 MW, the emitted capacity figure is the ROUNDED value 0, not the raw
state sum 1/1000 claimed. -/
theorem claim_C4_counterexample :
    ¬ (∀ r ∈ q8_pipeline [usinaMilli] [paisBrasil],
      r.capacidade_renovavel_mw = capacidadeRenovavelEstado [usinaMilli] r.estado) := by
  intro h
  have heval : q8_pipeline [usinaMilli] [paisBrasil] = [⟨"SP", 0, 100, 0⟩] := by
    simp +decide [q8_pipeline, q8_total_nacional, q8_capacidade_por_estado, q8_renewUnits,
      groupBy, usinaMilli, paisBrasil, temUnidadeRenovavel, isRenovavel, renovaveis,
      sortDescBy, insDescBy]
    norm_num [round2]
  have hcap := h (⟨"SP", 0, 100, 0⟩ : Q8Row) (by rw [heval]; exact List.mem_singleton.2 rfl)
  have hce : capacidadeRenovavelEstado [usinaMilli] "SP" = 1/1000 := by
    simp +decide [capacidadeRenovavelEstado, usinaMilli, unidadesRenovaveis,
      temUnidadeRenovavel, isRenovavel, renovaveis]
  rw [show (⟨"SP", 0, 100, 0⟩ : Q8Row).capacidade_renovavel_mw = 0 from rfl,
    show (⟨"SP", 0, 100, 0⟩ : Q8Row).estado = "SP" from rfl, hce] at hcap
  norm_num at hcap

/-- Counterexample to claim C9 as stated: with a renewable unit of
capacity -1 MW in one state and +2 MW in another, the RJ row's unrounded
percentage is -100, outside [0, 100]. -/
theorem claim_C9_counterexample :
    ¬ (∀ r ∈ q8_pipeline [usinaNeg, usinaPos] [paisBrasil],
      0 ≤ capacidadeRenovavelEstado [usinaNeg, usinaPos] r.estado /
        capacidadeRenovavelTotal [usinaNeg, usinaPos] * 100) := by
  intro h
  have heval : q8_pipeline [usinaNeg, usinaPos] [paisBrasil] =
      [⟨"SP", 2, 200, 0⟩, ⟨"RJ", -1, -100, 0⟩] := by
    simp +decide [q8_pipeline, q8_total_nacional, q8_capacidade_por_estado, q8_renewUnits,
      groupBy, usinaNeg, usinaPos, paisBrasil, temUnidadeRenovavel, isRenovavel, renovaveis,
      sortDescBy, insDescBy]
    norm_num [round2]
  have hineq := h (⟨"RJ", -1, -100, 0⟩ : Q8Row) (by rw [heval]; simp)
  have hce : capacidadeRenovavelEstado [usinaNeg, usinaPos] "RJ" = -1 := by
    simp +decide [capacidadeRenovavelEstado, usinaNeg, usinaPos, unidadesRenovaveis,
      temUnidadeRenovavel, isRenovavel, renovaveis]
  have ht : capacidadeRenovavelTotal [usinaNeg, usinaPos] = 1 := by
    simp +decide [capacidadeRenovavelTotal, usinaNeg, usinaPos, unidadesRenovaveis,
      temUnidadeRenovavel, isRenovavel, renovaveis]
    norm_num
  rw [show (⟨"RJ", -1, -100, 0⟩ : Q8Row).estado = "RJ" from rfl, hce, ht] at hineq
  norm_num at hineq

/-- Witness for claim C1 at the two-country fixture. -/
theorem claim_C1_witness :
    (∀ p ∈ paisesEx, ((p.idh.getD []).map Entrada.ano).Nodup ∧
      ((p.geracao_energia_renovavel_per_capita.getD []).map Entrada.ano).Nodup) ∧
    ∀ r ∈ q3_pipeline paisesEx,
      r.correlacao_idh_geracao = pearsonSpec (pairsAt paisesEx r.ano) :=
  ⟨by decide, claim_C1 paisesEx (by decide)⟩

/-- Witness for claim C2: the zero-variance guard at a concrete
single-sample group, and an empty-input result. -/
theorem claim_C2_witness :
    (sqDevIdh q3GroupEx = 0 ∨ sqDevGeracao q3GroupEx = 0) ∧
    (q3_row q3GroupEx).correlacao_idh_geracao = 0 ∧ q1_pipeline [] = [] := by
  have hz : sqDevIdh q3GroupEx = 0 := by norm_num [sqDevIdh, q3GroupEx]
  exact ⟨Or.inl hz,
    (claim_C2 paisesEx usinasEx q3GroupEx).2.1 (Or.inl hz),
    (claim_C2 paisesEx usinasEx q3GroupEx).1.1⟩

/-- Witness for claim C3 at the two-country fixture (no country named
Brazil, so the Brazil field is null in every row). -/
theorem claim_C3_witness :
    ((∀ p ∈ paisesEx, ((p.acesso_eletricidade.getD []).map Entrada.ano).Nodup) ∧
      (paisesEx.filter fun p => p.nome = "Brazil").length ≤ 1) ∧
    (∀ r ∈ q1_pipeline paisesEx,
      r.media_global = round2 ((q1_valoresAno paisesEx r.ano).sum /
        ((q1_valoresAno paisesEx r.ano).length : ℚ)) ∧
      r.acesso_brasil = q1_brasilAno paisesEx r.ano) :=
  ⟨⟨by decide, by decide⟩, (claim_C3 paisesEx (by decide) (by decide)).1⟩

/-- Witness for claim C4 (amended) at the one-plant fixture with a Brazil
document present. -/
theorem claim_C4_witness :
    (([paisBrasil].filter fun p => p.nome = "Brazil").length ≤ 1 ∧
    ∀ r ∈ q8_pipeline usinasEx [paisBrasil],
      r.capacidade_renovavel_mw = round2 (capacidadeRenovavelEstado usinasEx r.estado) ∧
      r.percentual_do_total_nacional =
        (if capacidadeRenovavelTotal usinasEx = 0 then 0
         else round2 (capacidadeRenovavelEstado usinasEx r.estado /
           capacidadeRenovavelTotal usinasEx * 100)) ∧
      r.investimento_nacional_total_usd = investimentoBrasilTotal [paisBrasil]) :=
  ⟨by decide, (claim_C4 usinasEx [paisBrasil] (by decide)).1⟩

/-- Witness for claim C5 at the one-plant fixture. -/
theorem claim_C5_witness :
    ∀ r ∈ q7_pipeline usinasEx,
      r.total_usinas = (usinasEx.filter fun u => u.estado.nome = r.estado).length ∧
      r.usinas_renovaveis =
        (usinasEx.filter fun u => u.estado.nome = r.estado ∧ temUnidadeRenovavel u).length ∧
      r.perc_renovaveis = (if r.total_usinas = 0 then 0
        else round2 ((r.usinas_renovaveis : ℚ) / (r.total_usinas : ℚ) * 100)) :=
  (claim_C5 usinasEx).1

/-- Witness for claim C7 at the one-plant fixture. -/
theorem claim_C7_witness :
    (usinasEx.map Usina.id).Nodup ∧
    ∀ r ∈ q5_pipeline usinasEx,
      r.qtd_usinas = (usinasEx.filter fun u => temCombustivel u r.combustivel).length :=
  ⟨by decide, (claim_C7 usinasEx (by decide)).1⟩

/-- Witness for claim C8 at the two-country fixture: the paired samples of
year 2000 are [(1, 1), (2, 2)], which lie on the line gen = 0 + 1 * hdi. -/
theorem claim_C8_witness :
    (0:ℚ) < 1 ∧ (∀ t ∈ pairsAt paisesEx 2000, t.2 = 0 + 1 * t.1) ∧
    2 ≤ (pairsAt paisesEx 2000).length ∧
    (∃ t ∈ pairsAt paisesEx 2000, ∃ u ∈ pairsAt paisesEx 2000, t.1 ≠ u.1) ∧
    (∀ r ∈ q3_pipeline paisesEx, r.ano = 2000 → r.correlacao_idh_geracao = 1) := by
  have hp : pairsAt paisesEx 2000 = [(1, 1), (2, 2)] := rfl
  have hlin : ∀ t ∈ pairsAt paisesEx 2000, t.2 = 0 + 1 * t.1 := by
    rw [hp]
    intro t ht
    rcases List.mem_cons.1 ht with rfl | ht2
    · norm_num
    · rcases List.mem_singleton.1 ht2 with rfl
      norm_num
  have hne : ∃ t ∈ pairsAt paisesEx 2000, ∃ u ∈ pairsAt paisesEx 2000, t.1 ≠ u.1 := by
    rw [hp]
    exact ⟨(1, 1), by simp, (2, 2), by simp, by norm_num⟩
  have hlen : 2 ≤ (pairsAt paisesEx 2000).length := by rw [hp]; norm_num
  exact ⟨by norm_num, hlin, hlen, hne,
    (claim_C8 paisesEx 2000 0 1 (by decide)).1 (by norm_num) hlin hlen hne⟩

/-- Witness for claim C9 (amended) at the one-plant fixture. -/
theorem claim_C9_witness :
    (∀ u ∈ usinasEx, ∀ g ∈ u.unidades_geradoras, 0 ≤ g.potencia_efetiva_mw) ∧
    (∀ r ∈ q8_pipeline usinasEx [paisBrasil],
      0 ≤ capacidadeRenovavelEstado usinasEx r.estado /
          capacidadeRenovavelTotal usinasEx * 100 ∧
      capacidadeRenovavelEstado usinasEx r.estado /
          capacidadeRenovavelTotal usinasEx * 100 ≤ 100) := by
  have hpos : ∀ u ∈ usinasEx, ∀ g ∈ u.unidades_geradoras, 0 ≤ g.potencia_efetiva_mw := by
    intro u hu g hg
    rcases List.mem_singleton.1 hu with rfl
    rcases List.mem_singleton.1 hg with rfl
    norm_num
  exact ⟨hpos, (claim_C9 usinasEx [paisBrasil]).2.1 hpos⟩

/-- Witness for claim C10: a collection whose only country is not Brazil
yields the empty report 8. -/
theorem claim_C10_witness :
    (∀ p ∈ [paisA], p.nome ≠ "Brazil") ∧ q8_pipeline usinasEx [paisA] = [] :=
  ⟨by decide, claim_C10 usinasEx [paisA] (by decide)⟩

end RunAllQueries
